import Mathlib

/-!
Verification development for the "alchemy" data-ingestion tool.

The embedding below translates the validation engine
(`ValidationService` in `src/services/ValidationService.ts`), the
upload pipeline's diagnostic attachment (`onDrop` in
`src/components/FileUpload.tsx`), the rule-description interpreter
(`processNaturalLanguageRule` in `src/components/RuleBuilder.tsx`) and
the natural-language query engine (`SearchPanel.tsx`) into Lean.

Modelling conventions:
* Rows are association lists from canonical field names to string
  values (`Row`); an absent key models a JavaScript `undefined` field,
  and JavaScript truthiness of a field is "present and non-empty".
* JavaScript numbers are modelled exactly: `parseInt` results live in
  `JSNum` (an integer or `NaN`), and JSON numbers are exact decimals
  `m / 10 ^ d`.  Host floating-point rounding of enormous numerals and
  the exponent display forms JavaScript uses outside
  `[1e-6, 1e21)` are not modelled; no claim concerns such values.
* `\s`, `trim` and friends use the ASCII whitespace set (the source
  data is ASCII; the Unicode extras of JavaScript never matter here).
-/

/-! ### JavaScript string primitives (character-list based) -/

/-- ASCII approximation of the JavaScript whitespace class `\s`. -/
def jsWsChar (c : Char) : Bool :=
  c = ' ' || c = '\t' || c = '\n' || c = '\r' || c = '\x0b' || c = '\x0c'

/-- Leading-whitespace removal on character lists. -/
def dropWs (cs : List Char) : List Char := cs.dropWhile jsWsChar

/-- Both-ends whitespace removal, as JavaScript `String.prototype.trim`. -/
def trimChars (cs : List Char) : List Char :=
  ((cs.dropWhile jsWsChar).reverse.dropWhile jsWsChar).reverse

/-- JavaScript `s.trim()`. -/
def jsTrim (s : String) : String := ⟨trimChars s.data⟩

/-- JavaScript `s.toLowerCase()` (ASCII). -/
def jsLower (s : String) : String := ⟨s.data.map Char.toLower⟩

/-- Does `needle` occur as a prefix of `hay` (exact characters)? -/
def startsWith : List Char → List Char → Bool
  | _, [] => true
  | [], _ :: _ => false
  | h :: hs, n :: ns => h = n && startsWith hs ns

/-- Does `needle` occur as a contiguous sublist of `hay`? -/
def containsSub (hay needle : List Char) : Bool :=
  match hay with
  | [] => needle.isEmpty
  | _ :: rest => startsWith hay needle || containsSub rest needle

/-- JavaScript `s.includes(sub)` (no case folding). -/
def jsIncludes (s sub : String) : Bool := containsSub s.data sub.data

/-- Split a character list at every occurrence of a separator character,
as JavaScript `s.split(c)` (so `"a,,b"` gives three pieces and `""`
gives one empty piece). -/
def splitOnChar (sep : Char) : List Char → List (List Char)
  | [] => [[]]
  | c :: rest =>
    match splitOnChar sep rest with
    | [] => [[]]
    | piece :: pieces =>
      if c = sep then [] :: piece :: pieces else (c :: piece) :: pieces

/-- JavaScript `s.split(sep)` for a one-character separator. -/
def jsSplit (s : String) (sep : Char) : List String :=
  (splitOnChar sep s.data).map (fun cs => ⟨cs⟩)

/-! ### JavaScript numbers: integers-or-NaN, and `parseInt` -/

/-- The result of JavaScript integer coercion: an exact integer or `NaN`. -/
inductive JSNum where
  | int (n : Int)
  | nan
deriving DecidableEq, Repr

/-- `x || 0` on a possibly-absent JavaScript number: `undefined`, `NaN`
and `0` are falsy and give `0`. -/
def jsOrZero : Option JSNum → Int
  | some (.int n) => n
  | some .nan => 0
  | none => 0

/-- Addition where `NaN` is absorbing. -/
def jsAdd (a : Int) : JSNum → JSNum
  | .int n => .int (a + n)
  | .nan => .nan

/-- `a > b` where an undefined or `NaN` left operand compares false. -/
def jsGtOpt : Option JSNum → Int → Bool
  | some (.int a), b => b < a
  | some .nan, _ => false
  | none, _ => false

/-- Decimal string of a JavaScript integer (matches `String(n)`). -/
def jsIntStr (n : Int) : String := toString n

/-- String form of a `JSNum` (as a JavaScript property key). -/
def jsNumKey : JSNum → String
  | .int n => jsIntStr n
  | .nan => "NaN"

/-- Value of a list of decimal digit characters. -/
def digitsVal (cs : List Char) : Nat :=
  cs.foldl (fun a c => a * 10 + (c.toNat - 48)) 0

/-- Value of a list of hexadecimal digit characters. -/
def hexVal (cs : List Char) : Nat :=
  cs.foldl (fun a c =>
    a * 16 + (if c.isDigit then c.toNat - 48
              else if 'a' ≤ c.toLower then c.toLower.toNat - 87 else 0)) 0

def isHexDigit (c : Char) : Bool :=
  c.isDigit || ('a' ≤ c.toLower && c.toLower ≤ 'f')

/-- JavaScript `parseInt(s)` (radix unspecified): skip leading
whitespace, optional sign, auto-detected `0x` hexadecimal, then the
longest digit run; `NaN` when no digit follows. -/
def jsParseIntChars (cs : List Char) : JSNum :=
  let cs := dropWs cs
  let (neg, cs) :=
    match cs with
    | '-' :: rest => (true, rest)
    | '+' :: rest => (false, rest)
    | _ => (false, cs)
  let hex : Option (List Char) :=
    match cs with
    | '0' :: 'x' :: rest => some rest
    | '0' :: 'X' :: rest => some rest
    | _ => none
  match hex with
  | some rest =>
    let ds := rest.takeWhile isHexDigit
    if ds.isEmpty then .nan
    else .int ((if neg then -1 else 1) * (hexVal ds : Int))
  | none =>
    let ds := cs.takeWhile Char.isDigit
    if ds.isEmpty then .nan
    else .int ((if neg then -1 else 1) * (digitsVal ds : Int))

/-- `parseInt` on a field value; an absent field is `parseInt(undefined)`,
which is `NaN`. -/
def jsParseInt : Option String → JSNum
  | some s => jsParseIntChars s.data
  | none => .nan

example : jsParseInt (some "  42abc") = .int 42 := by decide
example : jsParseInt (some "-0x10") = .int (-16) := by decide
example : jsParseInt (some "") = .nan := by decide
example : jsParseInt none = .nan := by decide
example : jsIncludes "tasks with skills" "with" = true := by decide
example : jsSplit "a,,b" ',' = ["a", "", "b"] := by decide
example : jsTrim "  T9 " = "T9" := by decide

/-! ### JSON values and `JSON.parse`

Numbers are exact decimals `m / 10 ^ d`, stored normalised (no
trailing zero in the fraction), so `d = 0` exactly when the number is
an integer in the sense of `Number.isInteger`. -/

inductive Json where
  | null
  | bool (b : Bool)
  | num (m : Int) (d : Nat)
  | str (s : String)
  | arr (xs : List Json)
  | obj (fields : List (String × Json))

/-- Strip trailing zeros from the fraction part of an exact decimal. -/
def normNum (m : Int) (d : Nat) : Int × Nat :=
  match d with
  | 0 => (m, 0)
  | k + 1 => if m % 10 = 0 then normNum (m / 10) k else (m, k + 1)

/-- JSON whitespace (the four characters the JSON grammar allows). -/
def jsonWsChar (c : Char) : Bool := c = ' ' || c = '\t' || c = '\n' || c = '\r'

def dropJsonWs (cs : List Char) : List Char := cs.dropWhile jsonWsChar

/-- Parse the digit run of a JSON integer part ("0" or nonzero-led). -/
def jsonIntDigits : List Char → Option (List Char × List Char)
  | '0' :: rest => some (['0'], rest)
  | c :: rest =>
    if c.isDigit then
      let run := rest.takeWhile Char.isDigit
      some (c :: run, rest.drop run.length)
    else none
  | [] => none

/-- Parse a JSON number literal starting at the head of `cs`:
sign, integer part, optional fraction, optional exponent. -/
def jsonParseNum (cs : List Char) : Option (Json × List Char) := do
  let (neg, cs) := match cs with
    | '-' :: rest => (true, rest)
    | _ => (false, cs)
  let (ip, cs) ← jsonIntDigits cs
  let (fp, cs) := match cs with
    | '.' :: rest =>
      let run := rest.takeWhile Char.isDigit
      if run.isEmpty then ([], '.' :: rest) else (run, rest.drop run.length)
    | _ => ([], cs)
  if (match cs with | '.' :: _ => true | _ => false) then none else
  let (hasExp, expNeg, ed, cs) := match cs with
    | 'e' :: '-' :: rest => (true, true, rest.takeWhile Char.isDigit, rest)
    | 'E' :: '-' :: rest => (true, true, rest.takeWhile Char.isDigit, rest)
    | 'e' :: '+' :: rest => (true, false, rest.takeWhile Char.isDigit, rest)
    | 'E' :: '+' :: rest => (true, false, rest.takeWhile Char.isDigit, rest)
    | 'e' :: rest => (true, false, rest.takeWhile Char.isDigit, rest)
    | 'E' :: rest => (true, false, rest.takeWhile Char.isDigit, rest)
    | _ => (false, false, [], cs)
  if hasExp && ed.isEmpty then none else
  let cs := if hasExp then (cs.drop ed.length) else cs
  let mant : Int := (if neg then -1 else 1) * (digitsVal (ip ++ fp) : Int)
  let e : Int := (if expNeg then -1 else 1) * (digitsVal ed : Int)
  let net : Int := (fp.length : Int) - e
  let (m, d) :=
    if net ≤ 0 then (mant * (10 : Int) ^ (-net).toNat, 0)
    else normNum mant net.toNat
  pure (.num m d, cs)

/-- Parse a JSON string body (after the opening quote), handling the
escape sequences `JSON.parse` accepts. -/
def jsonParseStr : Nat → List Char → Option (String × List Char)
  | 0, _ => none
  | _ + 1, [] => none
  | fuel + 1, c :: rest =>
    if c = '"' then some ("", rest)
    else if c = '\\' then
      match rest with
      | [] => none
      | e :: rest2 =>
        let simple : Option Char :=
          if e = '"' then some '"' else if e = '\\' then some '\\'
          else if e = '/' then some '/' else if e = 'b' then some '\x08'
          else if e = 'f' then some '\x0c' else if e = 'n' then some '\n'
          else if e = 'r' then some '\r' else if e = 't' then some '\t'
          else none
        match simple with
        | some ch => do
          let (s, r) ← jsonParseStr fuel rest2
          pure (⟨ch :: s.data⟩, r)
        | none =>
          if e = 'u' then
            match rest2 with
            | h1 :: h2 :: h3 :: h4 :: rest3 =>
              if isHexDigit h1 && isHexDigit h2 && isHexDigit h3 && isHexDigit h4 then do
                let (s, r) ← jsonParseStr fuel rest3
                pure (⟨Char.ofNat (hexVal [h1, h2, h3, h4]) :: s.data⟩, r)
              else none
            | _ => none
          else none
    else if c.toNat < 32 then none
    else do
      let (s, r) ← jsonParseStr fuel rest
      pure (⟨c :: s.data⟩, r)

mutual

/-- Parse one JSON value (leading whitespace allowed). -/
def jsonParseVal : Nat → List Char → Option (Json × List Char)
  | 0, _ => none
  | fuel + 1, cs =>
    match dropJsonWs cs with
    | 'n' :: 'u' :: 'l' :: 'l' :: rest => some (.null, rest)
    | 't' :: 'r' :: 'u' :: 'e' :: rest => some (.bool true, rest)
    | 'f' :: 'a' :: 'l' :: 's' :: 'e' :: rest => some (.bool false, rest)
    | '"' :: rest => do
      let (s, r) ← jsonParseStr (rest.length + 1) rest
      pure (.str s, r)
    | '[' :: rest =>
      (match dropJsonWs rest with
       | ']' :: r2 => some (.arr [], r2)
       | _ => do
         let (xs, r) ← jsonParseElems fuel rest
         pure (.arr xs, r))
    | '{' :: rest =>
      (match dropJsonWs rest with
       | '}' :: r2 => some (.obj [], r2)
       | _ => do
         let (fs, r) ← jsonParseFields fuel rest
         pure (.obj fs, r))
    | rest => jsonParseNum rest

/-- Parse the comma-separated elements of a non-empty array, including
the closing bracket. -/
def jsonParseElems : Nat → List Char → Option (List Json × List Char)
  | 0, _ => none
  | fuel + 1, cs => do
    let (v, r) ← jsonParseVal fuel cs
    match dropJsonWs r with
    | ',' :: r2 => do
      let (vs, r3) ← jsonParseElems fuel r2
      pure (v :: vs, r3)
    | ']' :: r2 => pure ([v], r2)
    | _ => none

/-- Parse the members of a non-empty object, including the closing
brace. -/
def jsonParseFields : Nat → List Char → Option (List (String × Json) × List Char)
  | 0, _ => none
  | fuel + 1, cs =>
    match dropJsonWs cs with
    | '"' :: rest => do
      let (k, r) ← jsonParseStr (rest.length + 1) rest
      match dropJsonWs r with
      | ':' :: r2 => do
        let (v, r3) ← jsonParseVal fuel r2
        match dropJsonWs r3 with
        | ',' :: r4 => do
          let (fs, r5) ← jsonParseFields fuel r4
          pure ((k, v) :: fs, r5)
        | '}' :: r4 => pure ([(k, v)], r4)
        | _ => none
      | _ => none
    | _ => none

end

/-- `JSON.parse(s)`: parse one value, allowing surrounding whitespace
and requiring the whole input to be consumed; `none` models a thrown
`SyntaxError`. -/
def jsonParse (s : String) : Option Json := do
  let (v, rest) ← jsonParseVal (2 * s.length + 8) s.data
  if (dropJsonWs rest).isEmpty then pure v else none

example : jsonParse "[1, 2,3]" = some (.arr [.num 1 0, .num 2 0, .num 3 0]) := rfl
example : jsonParse "[1.50]" = some (.arr [.num 15 1]) := rfl
example : jsonParse "[2.0]" = some (.arr [.num 2 0]) := rfl
example : jsonParse "not json" = none := rfl
example : jsonParse "[01]" = none := rfl
example : jsonParse "\x7b\x22a\x22: [true, null]\x7d"
    = some (.obj [("a", .arr [.bool true, .null])]) := rfl
example : jsonParse "\x22hi\x22" = some (.str "hi") := rfl
example : jsonParse "[0]" = some (.arr [.num 0 0]) := rfl

/-- Canonical JavaScript string of an exact decimal (`String(x)` for
numbers inside the plain-notation display range). -/
def decStr (m : Int) (d : Nat) : String :=
  if d = 0 then toString m
  else
    let a := m.natAbs
    let p := 10 ^ d
    let fs := toString (a % p)
    let fs : String := ⟨List.replicate (d - fs.length) '0' ++ fs.data⟩
    (if m < 0 then "-" else "") ++ toString (a / p) ++ "." ++ fs

mutual

/-- The property key a JSON value turns into when used as a JavaScript
object index (string coercion). -/
def jsKeyString : Json → String
  | .null => "null"
  | .bool true => "true"
  | .bool false => "false"
  | .num m d => decStr m d
  | .str s => s
  | .arr xs => jsArrJoin xs
  | .obj _ => "[object Object]"

/-- `Array.prototype.toString`: elements joined by commas, with `null`
elements contributing the empty string. -/
def jsArrJoin : List Json → String
  | [] => ""
  | [x] => (match x with | .null => "" | y => jsKeyString y)
  | x :: rest =>
    (match x with | .null => "" | y => jsKeyString y) ++ "," ++ jsArrJoin rest

end

example : jsKeyString (.num 2 0) = "2" := rfl
example : jsKeyString (.num 15 1) = "1.5" := rfl
example : jsKeyString (.num (-5) 2) = "-0.05" := rfl
example : jsKeyString (.arr [.num 1 0, .null, .str "a"]) = "1,,a" := rfl

/-- The slot/phase element check the validators run inside the parse
`try`: every element must satisfy `Number.isInteger` and be `≥ 1`;
returns the integers on success. -/
def checkPosInts : List Json → Option (List Int)
  | [] => some []
  | .num m 0 :: rest => if 1 ≤ m then (checkPosInts rest).map (m :: ·) else none
  | _ => none

/-- `JSON.parse` + array-of-positive-integers shape check, as performed
for `AvailableSlots` and `PreferredPhases`; `none` models the thrown
exception. -/
def parsePosIntArray (s : String) : Option (List Int) :=
  match jsonParse s with
  | some (.arr xs) => checkPosInts xs
  | _ => none

/-- `JSON.parse` + the implicit "has `forEach`" requirement (only
arrays survive the `phases.forEach` call). -/
def jsonParseArr (s : String) : Option (List Json) :=
  match jsonParse s with
  | some (.arr xs) => some xs
  | _ => none

/-! ### Data model (`DataEntity`, `ValidationError` from `pages/Index`) -/

inductive EntityType where
  | clients
  | workers
  | tasks
deriving DecidableEq, Repr

/-- The `type` string carried by a `DataEntity`. -/
def EntityType.str : EntityType → String
  | .clients => "clients"
  | .workers => "workers"
  | .tasks => "tasks"

inductive Severity where
  | error
  | warning
deriving DecidableEq, Repr

structure ValidationError where
  row : Nat
  column : String
  type : String
  message : String
  severity : Severity
deriving DecidableEq, Repr

/-- One uploaded record: canonical field name to string value.  An
absent key models an `undefined` field. -/
abbrev Row := List (String × String)

/-- `row.Field` access: `none` is `undefined`. -/
def getField (r : Row) (k : String) : Option String :=
  (List.find? (fun p => p.1 = k) r).map (fun p => p.2)

/-- JavaScript truthiness of a field value (strings: non-empty). -/
def fieldTruthy (r : Row) (k : String) : Bool :=
  match getField r k with
  | some v => v ≠ ""
  | none => false

structure DataEntity where
  id : String
  type : EntityType
  data : List Row
  errors : List ValidationError
  warnings : List ValidationError
deriving DecidableEq, Repr

/-! ### `ValidationService` -/

namespace ValidationService

/-- The per-kind `requiredColumns` lists of the three validators. -/
def requiredColumnsFor : EntityType → List String
  | .clients => ["ClientID", "ClientName", "PriorityLevel", "RequestedTaskIDs", "GroupTag"]
  | .workers => ["WorkerID", "WorkerName", "Skills", "AvailableSlots", "MaxLoadPerPhase"]
  | .tasks => ["TaskID", "TaskName", "Duration", "RequiredSkills", "MaxConcurrent"]

/-- The designated ID field of each entity kind. -/
def idColumnFor : EntityType → String
  | .clients => "ClientID"
  | .workers => "WorkerID"
  | .tasks => "TaskID"

def missingColRec (c : String) : ValidationError :=
  { row := 1, column := c, type := "missing_column",
    message := "Required column \x27" ++ c ++ "\x27 is missing", severity := .error }

/-- `checkRequiredColumns`: nothing when the entity has no rows;
otherwise one `missing_column` error (row 1) per required column
absent from the first row's key set. -/
def checkRequiredColumns (entity : DataEntity) (requiredColumns : List String) :
    List ValidationError :=
  match entity.data with
  | [] => []
  | first :: _ =>
    let availableColumns := first.map Prod.fst
    (requiredColumns.filter (fun c => ¬ availableColumns.contains c)).map missingColRec

/-- `seenIds.has(x)` for the string-valued seen-set. -/
def seenHas (seen : List String) (v : String) : Bool := seen.any (fun w => w = v)

def dupRec (col : String) (rowNum : Nat) (v : String) : ValidationError :=
  { row := rowNum, column := col, type := "duplicate_id",
    message := "Duplicate " ++ col ++ ": " ++ v, severity := .error }

def missRec (col : String) (rowNum : Nat) : ValidationError :=
  { row := rowNum, column := col, type := "missing_value",
    message := col ++ " is required", severity := .error }

/-- The duplicate-ID and missing-ID checks every validator runs first
on each row (`seen` holds the ID values added so far). -/
def idChecks (col : String) (seen : List String) (rowNum : Nat) (idv : Option String) :
    List ValidationError :=
  (match idv with
   | some v => if seenHas seen v then [dupRec col rowNum v] else []
   | none => []) ++
  (if (match idv with | some v => v ≠ "" | none => false : Bool) then []
   else [missRec col rowNum])

/-- The seen-set update: an ID is recorded when it is truthy and was
not already seen (a duplicate occurrence is not re-added). -/
def seenUpdate (seen : List String) (idv : Option String) : List String :=
  match idv with
  | some v => if seenHas seen v || v = "" then seen else v :: seen
  | none => seen

/-- The `entity.data.forEach((row, index) => ...)` loop shared by the
three validators: ID checks, then the kind-specific checks, threading
the seen-ID set. -/
def validateLoop (col : String) (extra : Nat → Row → List ValidationError) :
    List Row → List String → Nat → List ValidationError
  | [], _, _ => []
  | r :: rest, seen, idx =>
    idChecks col seen (idx + 1) (getField r col) ++ extra (idx + 1) r ++
      validateLoop col extra rest (seenUpdate seen (getField r col)) (idx + 1)

/-- Integer-range failure: `isNaN(x) || x < lo || x > hi`. -/
def rangeBad (x : JSNum) (lo hi : Int) : Bool :=
  match x with
  | .int n => n < lo || hi < n
  | .nan => true

def unknownRefRec (rowNum : Nat) (t : String) : ValidationError :=
  { row := rowNum, column := "RequestedTaskIDs", type := "unknown_reference",
    message := "Unknown TaskID reference: " ++ t, severity := .error }

/-- The client-specific row checks: priority range, `AttributesJSON`
well-formedness, and requested-task-ID cross references. -/
def clientsExtra (validTaskIds : List (Option String)) (rowNum : Nat) (r : Row) :
    List ValidationError :=
  (if rangeBad (jsParseInt (getField r "PriorityLevel")) 1 5 then
     [{ row := rowNum, column := "PriorityLevel", type := "invalid_range",
        message := "PriorityLevel must be between 1 and 5", severity := .error }]
   else []) ++
  (match getField r "AttributesJSON" with
   | some v =>
     if v = "" then []
     else
       match jsonParse v with
       | some _ => []
       | none =>
         [{ row := rowNum, column := "AttributesJSON", type := "invalid_json",
            message := "Invalid JSON format in AttributesJSON", severity := .error }]
   | none => []) ++
  (match getField r "RequestedTaskIDs" with
   | some v =>
     if v = "" then []
     else
       (((jsSplit v ',').map jsTrim).filter (fun t => ¬ validTaskIds.contains (some t))).map
         (unknownRefRec rowNum)
   | none => [])

/-- The worker-specific row checks: `AvailableSlots` shape plus the
overloaded-worker plausibility flag, then the `MaxLoadPerPhase`
range check. -/
def workersExtra (rowNum : Nat) (r : Row) : List ValidationError :=
  (match getField r "AvailableSlots" with
   | some v =>
     if v = "" then []
     else
       match parsePosIntArray v with
       | some slots =>
         (match jsParseInt (getField r "MaxLoadPerPhase") with
          | .int maxLoad =>
            if (slots.length : Int) < maxLoad then
              [{ row := rowNum, column := "MaxLoadPerPhase", type := "overloaded_worker",
                 message := "MaxLoadPerPhase (" ++ toString maxLoad ++
                   ") exceeds available slots (" ++ toString slots.length ++ ")",
                 severity := .warning }]
            else []
          | .nan => [])
       | none =>
         [{ row := rowNum, column := "AvailableSlots", type := "malformed_list",
            message := "AvailableSlots must be a valid JSON array of phase numbers",
            severity := .error }]
   | none => []) ++
  (match jsParseInt (getField r "MaxLoadPerPhase") with
   | .int m =>
     if m < 1 then
       [{ row := rowNum, column := "MaxLoadPerPhase", type := "invalid_range",
          message := "MaxLoadPerPhase must be a positive integer", severity := .error }]
     else []
   | .nan =>
     [{ row := rowNum, column := "MaxLoadPerPhase", type := "invalid_range",
        message := "MaxLoadPerPhase must be a positive integer", severity := .error }])

/-- The task-specific row checks: duration and concurrency ranges,
skill coverage, concurrency feasibility, and `PreferredPhases` shape. -/
def tasksExtra (workersData : List Row) (allWorkerSkills : List String)
    (rowNum : Nat) (r : Row) : List ValidationError :=
  (match jsParseInt (getField r "Duration") with
   | .int d =>
     if d < 1 then
       [{ row := rowNum, column := "Duration", type := "invalid_range",
          message := "Duration must be a positive integer", severity := .error }]
     else []
   | .nan =>
     [{ row := rowNum, column := "Duration", type := "invalid_range",
        message := "Duration must be a positive integer", severity := .error }]) ++
  (match jsParseInt (getField r "MaxConcurrent") with
   | .int m =>
     if m < 1 then
       [{ row := rowNum, column := "MaxConcurrent", type := "invalid_range",
          message := "MaxConcurrent must be a positive integer", severity := .error }]
     else []
   | .nan =>
     [{ row := rowNum, column := "MaxConcurrent", type := "invalid_range",
        message := "MaxConcurrent must be a positive integer", severity := .error }]) ++
  (match getField r "RequiredSkills" with
   | some v =>
     if v = "" then []
     else
       let requiredSkills := (jsSplit v ',').map jsTrim
       let uncoveredSkills := requiredSkills.filter (fun s => ¬ allWorkerSkills.contains s)
       (if uncoveredSkills.isEmpty then []
        else
          [{ row := rowNum, column := "RequiredSkills", type := "skill_coverage",
             message := "No workers have these required skills: " ++
               String.intercalate ", " uncoveredSkills,
             severity := .warning }]) ++
       (let qualifiedWorkers := workersData.filter (fun w =>
          match getField w "Skills" with
          | some sv =>
            if sv = "" then false
            else
              let workerSkills := (jsSplit sv ',').map jsTrim
              requiredSkills.any (fun rs => workerSkills.contains rs)
          | none => false)
        match jsParseInt (getField r "MaxConcurrent") with
        | .int mc =>
          if (qualifiedWorkers.length : Int) < mc then
            [{ row := rowNum, column := "MaxConcurrent", type := "max_concurrency_feasibility",
               message := "MaxConcurrent (" ++ toString mc ++
                 ") exceeds qualified workers (" ++ toString qualifiedWorkers.length ++ ")",
               severity := .warning }]
          else []
        | .nan => [])
   | none => []) ++
  (match getField r "PreferredPhases" with
   | some v =>
     if v = "" then []
     else
       match parsePosIntArray v with
       | some _ => []
       | none =>
         [{ row := rowNum, column := "PreferredPhases", type := "malformed_list",
            message := "PreferredPhases must be a valid JSON array of phase numbers",
            severity := .error }]
   | none => [])

def validateClients (entity : DataEntity) (allEntities : List DataEntity) :
    List ValidationError :=
  let tasksEntity := allEntities.find? (fun e => e.type = .tasks)
  let validTaskIds : List (Option String) :=
    (tasksEntity.map (fun te => te.data.map (fun t => getField t "TaskID"))).getD []
  checkRequiredColumns entity (requiredColumnsFor .clients) ++
    validateLoop "ClientID" (clientsExtra validTaskIds) entity.data [] 0

def validateWorkers (entity : DataEntity) (_allEntities : List DataEntity) :
    List ValidationError :=
  checkRequiredColumns entity (requiredColumnsFor .workers) ++
    validateLoop "WorkerID" workersExtra entity.data [] 0

def validateTasks (entity : DataEntity) (allEntities : List DataEntity) :
    List ValidationError :=
  let workersEntity := allEntities.find? (fun e => e.type = .workers)
  let workersData := (workersEntity.map (fun we => we.data)).getD []
  let allWorkerSkills := workersData.foldr (fun w acc =>
    (match getField w "Skills" with
     | some sv => if sv = "" then [] else (jsSplit sv ',').map jsTrim
     | none => []) ++ acc) []
  checkRequiredColumns entity (requiredColumnsFor .tasks) ++
    validateLoop "TaskID" (tasksExtra workersData allWorkerSkills) entity.data [] 0

/-- `ValidationService.validateEntity`: dispatch on the entity kind. -/
def validateEntity (entity : DataEntity) (allEntities : List DataEntity) :
    List ValidationError :=
  match entity.type with
  | .clients => validateClients entity allEntities
  | .workers => validateWorkers entity allEntities
  | .tasks => validateTasks entity allEntities

/-! #### `validatePhaseSlotSaturation` -/

/-- A JavaScript object used as a number-keyed accumulator map:
property key to value, in insertion order. -/
abbrev ObjMap := List (String × JSNum)

def objGet (m : ObjMap) (k : String) : Option JSNum :=
  (List.find? (fun p => p.1 = k) m).map (fun p => p.2)

/-- `m[k] = v`: overwrite in place, or append a new key. -/
def objSet (m : ObjMap) (k : String) (v : JSNum) : ObjMap :=
  if m.any (fun p => p.1 = k) then
    m.map (fun p => if p.1 = k then (k, v) else p)
  else m ++ [(k, v)]

/-- `m[k] = (m[k] || 0) + x`. -/
def objAddNum (m : ObjMap) (k : String) (x : JSNum) : ObjMap :=
  objSet m k (jsAdd (jsOrZero (objGet m k)) x)

/-- `parseInt(x) || 1` (both `NaN` and `0` are falsy). -/
def jsOrOne : JSNum → Int
  | .int 0 => 1
  | .int n => n
  | .nan => 1

/-- Is a property key an array-index key (canonical decimal below
2^32 - 1)?  Such keys enumerate first, in ascending order. -/
def isArrayIndexKey (s : String) : Bool :=
  !s.data.isEmpty && s.data.all Char.isDigit &&
    (s = "0" || s.data.head? ≠ some '0') && digitsVal s.data < 4294967295

def insertByVal (x : String) : List String → List String
  | [] => [x]
  | y :: ys =>
    if digitsVal x.data ≤ digitsVal y.data then x :: y :: ys else y :: insertByVal x ys

def sortByVal (l : List String) : List String := l.foldr insertByVal []

/-- `Object.keys`: array-index keys in ascending numeric order, then
the remaining keys in insertion order. -/
def jsObjectKeys (m : ObjMap) : List String :=
  let ks := m.map (fun p => p.1)
  sortByVal (ks.filter isArrayIndexKey) ++ ks.filter (fun k => ¬ isArrayIndexKey k = true)

/-- One step of the task-demand pass: accumulate per-phase demand, or
emit the malformed-`PreferredPhases` warning at the task's row. -/
def phaseWarnRec (rowNum : Nat) : ValidationError :=
  { row := rowNum, column := "PreferredPhases", type := "phase_slot_saturation",
    message := "Cannot calculate phase demand due to malformed PreferredPhases",
    severity := .warning }

def demandStep (st : ObjMap × List ValidationError) (p : Nat × Row) :
    ObjMap × List ValidationError :=
  let (dm, errs) := st
  let (index, task) := p
  if fieldTruthy task "PreferredPhases" && fieldTruthy task "Duration" then
    match jsonParseArr ((getField task "PreferredPhases").getD "") with
    | some phases =>
      let duration := jsParseInt (getField task "Duration")
      (phases.foldl (fun m ph => objAddNum m (jsKeyString ph) duration) dm, errs)
    | none => (dm, errs ++ [phaseWarnRec (index + 1)])
  else (dm, errs)

/-- `ValidationService.validatePhaseSlotSaturation`: empty unless both
a tasks and a workers entity are present; otherwise per-phase capacity
versus demand, with one warning per oversaturated phase. -/
def validatePhaseSlotSaturation (allEntities : List DataEntity) : List ValidationError :=
  match allEntities.find? (fun e => e.type = .tasks),
        allEntities.find? (fun e => e.type = .workers) with
  | some tasksEntity, some workersEntity =>
    let phaseCapacity : ObjMap := workersEntity.data.foldl (fun acc w =>
      match getField w "AvailableSlots" with
      | some v =>
        if v = "" then acc
        else
          match jsonParseArr v with
          | some slots =>
            let maxLoad := jsOrOne (jsParseInt (getField w "MaxLoadPerPhase"))
            slots.foldl (fun m ph => objAddNum m (jsKeyString ph) (.int maxLoad)) acc
          | none => acc
      | none => acc) []
    let (phaseDemand, errors) :=
      tasksEntity.data.enum.foldl demandStep (([] : ObjMap), ([] : List ValidationError))
    let satErrors := (jsObjectKeys phaseDemand).filterMap (fun phaseStr =>
      let phase := jsParseIntChars phaseStr.data
      let demand := objGet phaseDemand (jsNumKey phase)
      let capacity := jsOrZero (objGet phaseCapacity (jsNumKey phase))
      if jsGtOpt demand capacity then
        some { row := 1, column := "Phase Analysis", type := "phase_slot_saturation",
               message := "Phase " ++ jsNumKey phase ++ " is oversaturated: demand (" ++
                 (match demand with | some (.int dv) => toString dv | _ => "") ++
                 ") > capacity (" ++ toString capacity ++ ")",
               severity := .warning }
      else none)
    errors ++ satErrors
  | _, _ => []

end ValidationService

/-! ### The upload pipeline's diagnostic attachment (`onDrop`) -/

/-- Per-entity step of `onDrop`'s validation: populate `errors` and
`warnings` by severity from `validateEntity`. -/
def pipeValidate (uploadedEntities : List DataEntity) (entity : DataEntity) : DataEntity :=
  { entity with
    errors := (ValidationService.validateEntity entity uploadedEntities).filter
      (fun d => d.severity = .error),
    warnings := (ValidationService.validateEntity entity uploadedEntities).filter
      (fun d => d.severity = .warning) }

/-- Cross-entity step of `onDrop`: when the phase-slot check found
anything, append its findings (split by severity) to the first tasks
entity in place. -/
def attachPhase (validatedEntities : List DataEntity)
    (phaseSlotErrors : List ValidationError) : List DataEntity :=
  if phaseSlotErrors.length > 0 then
    match validatedEntities.findIdx? (fun e => e.type = .tasks) with
    | some k =>
      validatedEntities.enum.map (fun p =>
        if p.1 = k then
          { p.2 with
            warnings := p.2.warnings ++ phaseSlotErrors.filter (fun d => d.severity = .warning),
            errors := p.2.errors ++ phaseSlotErrors.filter (fun d => d.severity = .error) }
        else p.2)
    | none => validatedEntities
  else validatedEntities

/-- The validation part of `FileUpload.onDrop`: populate each entity's
`errors`/`warnings` by severity from `validateEntity`, then append the
phase-slot findings (split by severity) to the first tasks entity. -/
def attachDiagnostics (uploadedEntities : List DataEntity) : List DataEntity :=
  attachPhase (uploadedEntities.map (pipeValidate uploadedEntities))
    (ValidationService.validatePhaseSlotSaturation
      (uploadedEntities.map (pipeValidate uploadedEntities)))

/-! ### Rule description interpreter (`RuleBuilder.processNaturalLanguageRule`) -/

inductive RuleType where
  | coRun
  | slotRestriction
  | loadLimit
  | phaseWindow
  | patternMatch
  | precedence
deriving DecidableEq, Repr

structure SuggestedRule where
  type : RuleType
  name : String
  description : String
  parameters : List (String × Json)

/-- `processNaturalLanguageRule`: blank input is rejected (the handler
returns after an error toast, producing no rule); otherwise
first-match-wins keyword dispatch over the lowercased text, always
carrying the original text as the description. -/
def processNaturalLanguageRule (naturalLanguageRule : String) : Option SuggestedRule :=
  if jsTrim naturalLanguageRule = "" then none
  else
    let ruleLower := jsLower naturalLanguageRule
    if jsIncludes ruleLower "together" || jsIncludes ruleLower "co-run" then
      some { type := .coRun, name := "Co-run Rule", description := naturalLanguageRule,
             parameters := [("tasks", .arr [])] }
    else if jsIncludes ruleLower "load" || jsIncludes ruleLower "limit" then
      some { type := .loadLimit, name := "Load Limit Rule", description := naturalLanguageRule,
             parameters := [("maxSlotsPerPhase", .num 5 0), ("workerGroup", .str "")] }
    else if jsIncludes ruleLower "phase" || jsIncludes ruleLower "window" then
      some { type := .phaseWindow, name := "Phase Window Rule", description := naturalLanguageRule,
             parameters := [("taskId", .str ""), ("allowedPhases", .arr [])] }
    else
      some { type := .patternMatch, name := "Custom Rule", description := naturalLanguageRule,
             parameters := [("pattern", .str ""), ("action", .str "apply")] }

/-! ### Natural-language query engine (`SearchPanel`)

The seven source patterns are fixed regular expressions; they are
encoded as terms of a small regex language whose matcher implements
the JavaScript semantics these patterns exercise: leftmost match,
ordered alternation, greedy one-or-more character classes and greedy
optional groups, case-insensitive literals. -/

inductive CClass where
  | word
  | space
  | digit
  | dot
deriving DecidableEq, Repr

/-- `\w`, `\s`, `\d` and `.` (ASCII; `.` excludes line terminators). -/
def inClass : CClass → Char → Bool
  | .word, c => c.isAlphanum || c = '_'
  | .space, c => jsWsChar c
  | .digit, c => c.isDigit
  | .dot, c => c ≠ '\n' && c ≠ '\r'

inductive RE where
  | lit (s : List Char)
  | plus (k : CClass)
  | grp (i : Nat) (r : RE)
  | alt2 (a b : RE)
  | seq2 (a b : RE)
  | opt (r : RE)
  | eps
  | fail

/-- Case-insensitive literal match against the front of the input. -/
def litMatch : List Char → List Char → Option (List Char)
  | cs, [] => some cs
  | [], _ :: _ => none
  | c :: cs, n :: ns => if c.toLower = n.toLower then litMatch cs ns else none

/-- All ways a regex can match a front segment of the input, in the
backtracking priority order of a JavaScript engine; each outcome is
the captured groups plus the remaining input. -/
def reMatch : RE → List Char → List (List (Nat × String) × List Char)
  | .lit s, cs =>
    match litMatch cs s with
    | some rest => [([], rest)]
    | none => []
  | .plus k, cs =>
    let m := (cs.takeWhile (inClass k)).length
    (List.range m).map (fun i => ([], cs.drop (m - i)))
  | .grp i r, cs =>
    (reMatch r cs).map (fun o =>
      ((i, (⟨cs.take (cs.length - o.2.length)⟩ : String)) :: o.1, o.2))
  | .alt2 a b, cs => reMatch a cs ++ reMatch b cs
  | .seq2 a b, cs =>
    (reMatch a cs).flatMap (fun o =>
      (reMatch b o.2).map (fun o2 => (o.1 ++ o2.1, o2.2)))
  | .opt r, cs => reMatch r cs ++ [([], cs)]
  | .eps, cs => [([], cs)]
  | .fail, _ => []

/-- Sequencing of a pattern list. -/
def reSeq (rs : List RE) : RE := rs.foldr .seq2 .eps

/-- Scan successive start positions for the leftmost match. -/
def reSearchGo (r : RE) : List Char → Option (List (Nat × String))
  | [] =>
    match reMatch r [] with
    | o :: _ => some o.1
    | [] => none
  | c :: rest =>
    match reMatch r (c :: rest) with
    | o :: _ => some o.1
    | [] => reSearchGo r rest

/-- `String.prototype.match` with a non-global regex: the first (i.e.
leftmost, then priority-ordered) match's capture groups. -/
def reSearch (r : RE) (s : String) : Option (List (Nat × String)) :=
  reSearchGo r s.data

/-- Capture-group access (`match[i]`, `undefined` when absent). -/
def capGet (caps : List (Nat × String)) (i : Nat) : Option String :=
  (List.find? (fun p => p.1 = i) caps).map (fun p => p.2)

def reWord : RE := .plus .word
def reSp : RE := .plus .space
def reDig : RE := .plus .digit
def reAny : RE := .plus .dot

/-- Ordered alternation of case-insensitive literals. -/
def lits (ss : List String) : RE :=
  (ss.map (fun s => RE.lit s.data)).foldr .alt2 .fail

/-- `entityType → targetType` synonym table of `findEntityByType`. -/
def typeSynonym (s : String) : Option EntityType :=
  if s = "client" || s = "clients" then some .clients
  else if s = "worker" || s = "workers" || s = "employee" || s = "employees" then some .workers
  else if s = "task" || s = "tasks" || s = "job" || s = "jobs" then some .tasks
  else none

def findEntityByType (entityType : String) (entities : List DataEntity) : Option DataEntity :=
  match typeSynonym (jsLower entityType) with
  | some t => entities.find? (fun e => e.type = t)
  | none => none

/-- `condition.match(/(\d+)/)`: the leftmost digit run's value. -/
def firstDigitRun : List Char → Option Nat
  | [] => none
  | c :: rest =>
    if c.isDigit then some (digitsVal (c :: rest.takeWhile Char.isDigit))
    else firstDigitRun rest

/-- `processCondition`: keyword-recognised condition handlers for
priority, duration and skill-count thresholds. -/
def processCondition (entityType condition : String) (entities : List DataEntity) : List Row :=
  match findEntityByType entityType entities with
  | none => []
  | some targetEntity =>
    let conditionLower := jsLower condition
    if jsIncludes conditionLower "priority" && jsIncludes conditionLower "5" then
      targetEntity.data.filter (fun item => getField item "PriorityLevel" = some "5")
    else if jsIncludes conditionLower "high priority" then
      targetEntity.data.filter (fun item =>
        match jsParseInt (getField item "PriorityLevel") with
        | .int n => 4 ≤ n
        | .nan => false)
    else if jsIncludes conditionLower "duration" &&
        (jsIncludes conditionLower "more than" || jsIncludes conditionLower "longer than") &&
        (firstDigitRun condition.data).isSome then
      let threshold := ((firstDigitRun condition.data).getD 0 : Int)
      targetEntity.data.filter (fun item =>
        match jsParseInt (getField item "Duration") with
        | .int n => threshold < n
        | .nan => false)
    else if jsIncludes conditionLower "skills" && jsIncludes conditionLower "more than" &&
        (firstDigitRun condition.data).isSome then
      let threshold := (firstDigitRun condition.data).getD 0
      targetEntity.data.filter (fun item =>
        match getField item "Skills" with
        | some sv => if sv = "" then false else threshold < (jsSplit sv ',').length
        | none => false)
    else []

inductive CompVal where
  | num (n : Int)
  | str (s : String)

inductive CmpOp where
  | gt
  | lt
  | eq

/-- The human-field-synonym table of `processComparison`. -/
def fieldMapLookup (f : String) : Option String :=
  if f = "priority" then some "PriorityLevel"
  else if f = "duration" then some "Duration"
  else if f = "skills" then some "Skills"
  else if f = "load" then some "MaxLoadPerPhase"
  else if f = "concurrent" then some "MaxConcurrent"
  else none

/-- `processComparison`: numeric `>`/`<`/`===` when the comparison
value is a number, case-insensitive substring containment otherwise
(the operator is ignored on the string path, as in the source). -/
def processComparison (entityType field : String) (op : CmpOp) (value : CompVal)
    (entities : List DataEntity) : List Row :=
  match findEntityByType entityType entities with
  | none => []
  | some targetEntity =>
    let actualField := (fieldMapLookup (jsLower field)).getD field
    targetEntity.data.filter (fun item =>
      match getField item actualField with
      | none => false
      | some itemValue =>
        match value with
        | .num n =>
          (match jsParseIntChars itemValue.data with
           | .nan => false
           | .int m =>
             match op with
             | .gt => n < m
             | .lt => m < n
             | .eq => m = n)
        | .str s => jsIncludes (jsLower itemValue) (jsLower s))

/-- `processGroupFilter`: substring match against the first truthy of
the group-like fields. -/
def processGroupFilter (entityType groupName : String) (entities : List DataEntity) :
    List Row :=
  match findEntityByType entityType entities with
  | none => []
  | some targetEntity =>
    targetEntity.data.filter (fun item =>
      let cands := [getField item "GroupTag", getField item "WorkerGroup",
                    getField item "Category"]
      match cands.findSome? (fun o =>
          match o with
          | some v => if v = "" then none else some v
          | none => none) with
      | some groupField => jsIncludes (jsLower groupField) (jsLower groupName)
      | none => false)

/-- SameValueZero comparison of a JSON array element with a number. -/
def jsonEqInt (j : Json) (n : Int) : Bool :=
  match j with
  | .num m 0 => m = n
  | _ => false

/-- The `PreferredPhases` half of the phase filter (reached only when
`AvailableSlots` is falsy). -/
def phasePreferredMatch (phases : List Int) (item : Row) : Bool :=
  match getField item "PreferredPhases" with
  | some v =>
    if v = "" then false
    else
      match jsonParse v with
      | some (.arr xs) => phases.any (fun ph => xs.any (fun j => jsonEqInt j ph))
      | some (.str s) => phases.any (fun ph => jsIncludes s (jsIntStr ph))
      | _ => false
  | none => false

/-- `processPhaseFilter`: all requested phases must be in the parsed
`AvailableSlots` array, or (for rows without slots) any requested
phase in `PreferredPhases`; parse failures and non-array values other
than strings match nothing (`String.prototype.includes` handles the
string case, with the phase number coerced to its decimal form). -/
def processPhaseFilter (entityType : String) (phases : List Int)
    (entities : List DataEntity) : List Row :=
  match findEntityByType entityType entities with
  | none => []
  | some targetEntity =>
    targetEntity.data.filter (fun item =>
      match getField item "AvailableSlots" with
      | some v =>
        if v = "" then phasePreferredMatch phases item
        else
          match jsonParse v with
          | some (.arr xs) => phases.all (fun ph => xs.any (fun j => jsonEqInt j ph))
          | some (.str s) => phases.all (fun ph => jsIncludes s (jsIntStr ph))
          | _ => false
      | none => phasePreferredMatch phases item)

/-- Length of the `/\s+(?:or|and)\s+/` separator starting exactly at
the head of `cs`, if any (the alternation is case-sensitive). -/
def sepAt (cs : List Char) : Option Nat :=
  let w := (cs.takeWhile jsWsChar).length
  if w = 0 then none
  else
    let rest := cs.drop w
    if startsWith rest ['o', 'r'] then
      let w2 := ((rest.drop 2).takeWhile jsWsChar).length
      if w2 = 0 then none else some (w + 2 + w2)
    else if startsWith rest ['a', 'n', 'd'] then
      let w3 := ((rest.drop 3).takeWhile jsWsChar).length
      if w3 = 0 then none else some (w + 3 + w3)
    else none

/-- `skillsText.split(/\s+(?:or|and)\s+/)`, fuel-driven (every step
consumes at least one character, so `length + 1` fuel always
suffices). -/
def splitOrAndGo : Nat → List Char → List Char → List (List Char)
  | _, acc, [] => [acc.reverse]
  | 0, acc, cs => [acc.reverse ++ cs]
  | fuel + 1, acc, c :: rest =>
    match sepAt (c :: rest) with
    | some len => acc.reverse :: splitOrAndGo fuel [] (rest.drop (len - 1))
    | none => splitOrAndGo fuel (c :: acc) rest

def splitOrAnd (cs : List Char) : List (List Char) :=
  splitOrAndGo (cs.length + 1) [] cs

/-- `a || b || ''` over row fields: the first truthy value, else `""`. -/
def firstTruthyField (r : Row) : List String → String
  | [] => ""
  | k :: rest =>
    match getField r k with
    | some v => if v = "" then firstTruthyField r rest else v
    | none => firstTruthyField r rest

/-- `processSkillFilter`: requested alternatives (split on or/and)
matched as substrings of the row's skill-like field. -/
def processSkillFilter (entityType skillsText : String) (entities : List DataEntity) :
    List Row :=
  match findEntityByType entityType entities with
  | none => []
  | some targetEntity =>
    let requiredSkills :=
      (splitOrAnd skillsText.data).map (fun cs => jsLower (jsTrim ⟨cs⟩))
    targetEntity.data.filter (fun item =>
      let itemSkills := jsLower (firstTruthyField item ["Skills", "RequiredSkills"])
      requiredSkills.any (fun skill => jsIncludes itemSkills skill))

/-- `parseInt(match[i])` for a `\d+` capture (never `NaN` when the
group matched). -/
def capInt (caps : List (Nat × String)) (i : Nat) : Int :=
  match jsParseInt (capGet caps i) with
  | .int n => n
  | .nan => 0

/-- The ordered query pattern table: regex, processor, description. -/
def queryPatterns :
    List (RE × (List (Nat × String) → List DataEntity → List Row) × String) :=
  [ (reSeq [lits ["all", "find", "show", "get"], reSp, .grp 1 reWord, reSp,
           lits ["with", "having", "where"], reSp, .grp 2 reAny],
     fun caps data =>
       processCondition ((capGet caps 1).getD "") ((capGet caps 2).getD "") data,
     "Find entities with specific conditions"),
    (reSeq [.grp 1 reWord, reSp, lits ["with", "having"], reSp, .grp 2 reWord, reSp,
           lits ["more than", "greater than", ">"], reSp, .grp 3 reDig],
     fun caps data =>
       processComparison ((capGet caps 1).getD "") ((capGet caps 2).getD "") .gt
         (.num (capInt caps 3)) data,
     "Find entities with numeric comparisons"),
    (reSeq [.grp 1 reWord, reSp, lits ["with", "having"], reSp, .grp 2 reWord, reSp,
           lits ["less than", "fewer than", "<"], reSp, .grp 3 reDig],
     fun caps data =>
       processComparison ((capGet caps 1).getD "") ((capGet caps 2).getD "") .lt
         (.num (capInt caps 3)) data,
     "Find entities with numeric comparisons"),
    (reSeq [.grp 1 reWord, reSp, lits ["with", "having"], reSp, .grp 2 reWord, reSp,
           lits ["equal to", "equals", "="], reSp, .grp 3 reAny],
     fun caps data =>
       processComparison ((capGet caps 1).getD "") ((capGet caps 2).getD "") .eq
         (.str (jsTrim ((capGet caps 3).getD ""))) data,
     "Find entities with exact matches"),
    (reSeq [.grp 1 reWord, reSp, lits ["in", "from"], reSp, lits ["group", "team"],
           reSp, .grp 2 reWord],
     fun caps data =>
       processGroupFilter ((capGet caps 1).getD "") ((capGet caps 2).getD "") data,
     "Find entities in specific groups"),
    (reSeq [.grp 1 reWord, reSp, lits ["available", "working"], reSp,
           lits ["in", "during"], reSp, .lit "phase".data, reSp, .grp 2 reDig,
           .opt (reSeq [reSp, .lit "and".data, reSp, .grp 3 reDig])],
     fun caps data =>
       let rawPhases : List (Option Int) :=
         [some (capInt caps 2),
          match capGet caps 3 with
          | some _ => some (capInt caps 3)
          | none => none]
       let phases := (rawPhases.filterMap id).filter (fun n => n ≠ 0)
       processPhaseFilter ((capGet caps 1).getD "") phases data,
     "Find entities available in specific phases"),
    (reSeq [.grp 1 reWord, reSp, lits ["requiring", "needing", "with"], reSp,
           lits ["skill", "skills"], reSp, .grp 2 reAny],
     fun caps data =>
       processSkillFilter ((capGet caps 1).getD "") ((capGet caps 2).getD "") data,
     "Find entities with specific skills")]

/-- The `for (const pattern of queryPatterns)` loop: the first pattern
whose regex matches the query, with its processor's output and its
description. -/
def patternStage (query : String) (data : List DataEntity) :
    Option (List Row × String) :=
  queryPatterns.findSome? (fun p =>
    match reSearch p.1 query with
    | some caps => some (p.2.1 caps data, p.2.2)
    | none => none)

/-- `{...row, key: value}`: overwrite in place or append. -/
def setField (r : Row) (k v : String) : Row :=
  if r.any (fun p => p.1 = k) then r.map (fun p => if p.1 = k then (k, v) else p)
  else r ++ [(k, v)]

/-- The fallback case-insensitive substring search over the string
form of every field of every row of every entity, tagging each match
with its source kind. -/
def fallbackSearch (query : String) (data : List DataEntity) : List Row :=
  let queryLower := jsLower query
  data.foldr (fun entity acc =>
    ((entity.data.filter (fun row =>
        row.any (fun p => jsIncludes (jsLower p.2) queryLower))).map
      (fun row => setField row "_entityType" entity.type.str)) ++ acc) []

/-- The trailing `results.map`: ensure a truthy `_entityType` tag. -/
def tagUnknown (r : Row) : Row :=
  setField r "_entityType"
    (match getField r "_entityType" with
     | some v => if v = "" then "unknown" else v
     | none => "unknown")

def fallbackInsight : String := "Used fallback text search across all entities"

/-! ### General list facts used by the diagnostic-counting proofs -/

theorem countP_split (l : List α) (pr p : α → Bool) :
    (l.filter p).countP pr + (l.filter (fun a => !(p a))).countP pr = l.countP pr := by
  induction l with
  | nil => rfl
  | cons a l ih =>
    by_cases h : p a = true
    · simp [List.filter_cons, h, List.countP_cons, ← ih]
      omega
    · simp at h
      simp [List.filter_cons, h, List.countP_cons, ← ih]
      omega

theorem countP_nodup_mem (l : List String) (hn : l.Nodup) (c : String) :
    l.countP (fun x => decide (x = c)) = if c ∈ l then 1 else 0 := by
  induction l with
  | nil => simp
  | cons a l ih =>
    rcases List.nodup_cons.mp hn with ⟨ha, hl⟩
    by_cases hac : a = c
    · subst hac
      simp [List.countP_cons, ih hl, ha]
    · simp [List.countP_cons, ih hl, hac, Ne.symm hac]

theorem str_append_cancel (pre a b : String) : pre ++ a = pre ++ b ↔ a = b := by
  constructor
  · intro h
    have hd : (pre ++ a).data = (pre ++ b).data := by rw [h]
    simp only [String.data_append] at hd
    have h2 := List.append_cancel_left hd
    cases a; cases b
    exact congrArg String.mk h2
  · intro h; rw [h]

/-! ### Structural facts about the validation loop -/

namespace ValidationService

/-- Benign kind-specific checks: every diagnostic sits at its own row
and carries a kind distinct from the identity/column kinds. -/
def extraOk (extra : Nat → Row → List ValidationError) : Prop :=
  ∀ n r d, d ∈ extra n r →
    d.row = n ∧ d.type ≠ "duplicate_id" ∧ d.type ≠ "missing_value" ∧
      d.type ≠ "missing_column"

theorem idChecks_mem (col : String) (seen : List String) (rowNum : Nat)
    (idv : Option String) :
    ∀ d ∈ idChecks col seen rowNum idv,
      d.row = rowNum ∧ (d.type = "duplicate_id" ∨ d.type = "missing_value") := by
  intro d hd
  unfold idChecks at hd
  simp only [List.mem_append] at hd
  rcases hd with h | h
  · split at h
    · split at h
      · have hh := List.mem_singleton.mp h
        subst hh
        exact ⟨rfl, Or.inl rfl⟩
      · simp at h
    · simp at h
  · split at h
    · simp at h
    · have hh := List.mem_singleton.mp h
      subst hh
      exact ⟨rfl, Or.inr rfl⟩

theorem clientsExtra_ok (validTaskIds : List (Option String)) :
    extraOk (clientsExtra validTaskIds) := by
  intro n r d hd
  unfold clientsExtra at hd
  simp only [List.mem_append] at hd
  rcases hd with (h | h) | h
  · split at h
    · have hh := List.mem_singleton.mp h
      subst hh
      refine ⟨rfl, ?_, ?_, ?_⟩ <;> simp
    · simp at h
  · split at h
    · split at h
      · simp at h
      · split at h
        · simp at h
        · have hh := List.mem_singleton.mp h
          subst hh
          refine ⟨rfl, ?_, ?_, ?_⟩ <;> simp
    · simp at h
  · split at h
    · split at h
      · simp at h
      · rcases List.mem_map.mp h with ⟨t, _, rfl⟩
        refine ⟨rfl, ?_, ?_, ?_⟩ <;> simp [unknownRefRec]
    · simp at h

theorem workersExtra_ok : extraOk workersExtra := by
  intro n r d hd
  unfold workersExtra at hd
  simp only [List.mem_append] at hd
  rcases hd with h | h
  · split at h
    · split at h
      · simp at h
      · split at h
        · split at h
          · split at h
            · have hh := List.mem_singleton.mp h
              subst hh
              refine ⟨rfl, ?_, ?_, ?_⟩ <;> simp
            · simp at h
          · simp at h
        · have hh := List.mem_singleton.mp h
          subst hh
          refine ⟨rfl, ?_, ?_, ?_⟩ <;> simp
    · simp at h
  · split at h
    · split at h
      · have hh := List.mem_singleton.mp h
        subst hh
        refine ⟨rfl, ?_, ?_, ?_⟩ <;> simp
      · simp at h
    · have hh := List.mem_singleton.mp h
      subst hh
      refine ⟨rfl, ?_, ?_, ?_⟩ <;> simp

theorem tasksExtra_ok (workersData : List Row) (allWorkerSkills : List String) :
    extraOk (tasksExtra workersData allWorkerSkills) := by
  intro n r d hd
  unfold tasksExtra at hd
  simp only [List.mem_append] at hd
  rcases hd with ((h | h) | h) | h
  · split at h
    · split at h
      · have hh := List.mem_singleton.mp h
        subst hh
        refine ⟨rfl, ?_, ?_, ?_⟩ <;> simp
      · simp at h
    · have hh := List.mem_singleton.mp h
      subst hh
      refine ⟨rfl, ?_, ?_, ?_⟩ <;> simp
  · split at h
    · split at h
      · have hh := List.mem_singleton.mp h
        subst hh
        refine ⟨rfl, ?_, ?_, ?_⟩ <;> simp
      · simp at h
    · have hh := List.mem_singleton.mp h
      subst hh
      refine ⟨rfl, ?_, ?_, ?_⟩ <;> simp
  · split at h
    · split at h
      · simp at h
      · simp only [List.mem_append] at h
        rcases h with h | h
        · split at h
          · simp at h
          · have hh := List.mem_singleton.mp h
            subst hh
            refine ⟨rfl, ?_, ?_, ?_⟩ <;> simp
        · split at h
          · split at h
            · have hh := List.mem_singleton.mp h
              subst hh
              refine ⟨rfl, ?_, ?_, ?_⟩ <;> simp
            · simp at h
          · simp at h
    · simp at h
  · split at h
    · split at h
      · simp at h
      · split at h
        · simp at h
        · have hh := List.mem_singleton.mp h
          subst hh
          refine ⟨rfl, ?_, ?_, ?_⟩ <;> simp
    · simp at h

/-- The seen-set accumulated after consuming a prefix of the rows. -/
def seenAcc (col : String) : List String → List Row → List String
  | seen, [] => seen
  | seen, r :: rest => seenAcc col (seenUpdate seen (getField r col)) rest

theorem seenHas_iff (seen : List String) (v : String) :
    seenHas seen v = true ↔ v ∈ seen := by
  simp only [seenHas, List.any_eq_true, decide_eq_true_eq]
  constructor
  · rintro ⟨w, hw, rfl⟩; exact hw
  · intro hv; exact ⟨v, hv, rfl⟩

theorem seenUpdate_mem (seen : List String) (idv : Option String) (w : String) :
    w ∈ seenUpdate seen idv ↔ w ∈ seen ∨ (idv = some w ∧ w ≠ "") := by
  rcases idv with _ | v
  · simp [seenUpdate]
  · by_cases hc : seenHas seen v = true
    · simp only [seenUpdate, hc, Bool.true_or, if_pos]
      constructor
      · exact Or.inl
      · rintro (h | ⟨hv, hw⟩)
        · exact h
        · cases hv; exact (seenHas_iff seen w).mp hc
    · by_cases hv : v = ""
      · subst hv
        simp only [seenUpdate]
        rw [if_pos (by simp)]
        constructor
        · exact Or.inl
        · rintro (h | ⟨heq, hne⟩)
          · exact h
          · cases heq; simp at hne
      · simp only [seenUpdate]
        rw [if_neg (by simp [hc, hv])]
        simp only [List.mem_cons]
        constructor
        · rintro (rfl | h)
          · exact Or.inr ⟨rfl, hv⟩
          · exact Or.inl h
        · rintro (h | ⟨heq, _⟩)
          · exact Or.inr h
          · cases heq; exact Or.inl rfl

theorem seenAcc_mem (col : String) :
    ∀ (rows : List Row) (seen : List String) (w : String),
      w ∈ seenAcc col seen rows ↔
        w ∈ seen ∨ (w ≠ "" ∧ ∃ r ∈ rows, getField r col = some w) := by
  intro rows
  induction rows with
  | nil => intro seen w; simp [seenAcc]
  | cons r rest ih =>
    intro seen w
    simp only [seenAcc]
    rw [ih, seenUpdate_mem]
    constructor
    · rintro ((h | ⟨hv, hw⟩) | ⟨hw, r', hr', hg⟩)
      · exact Or.inl h
      · exact Or.inr ⟨hw, r, List.mem_cons_self r rest, hv⟩
      · exact Or.inr ⟨hw, r', List.mem_cons_of_mem r hr', hg⟩
    · rintro (h | ⟨hw, r', hr', hg⟩)
      · exact Or.inl (Or.inl h)
      · rcases List.mem_cons.mp hr' with rfl | hr''
        · exact Or.inl (Or.inr ⟨hg, hw⟩)
        · exact Or.inr ⟨hw, r', hr'', hg⟩

theorem validateLoop_row_lb (col : String) (extra : Nat → Row → List ValidationError)
    (hex : extraOk extra) :
    ∀ (rows : List Row) (seen : List String) (idx : Nat) (d : ValidationError),
      d ∈ validateLoop col extra rows seen idx → idx < d.row := by
  intro rows
  induction rows with
  | nil => intro seen idx d h; simp [validateLoop] at h
  | cons r rest ih =>
    intro seen idx d h
    simp only [validateLoop, List.mem_append] at h
    rcases h with (h | h) | h
    · have := (idChecks_mem col seen (idx + 1) (getField r col) d h).1
      omega
    · have := (hex (idx + 1) r d h).1
      omega
    · have := ih (seenUpdate seen (getField r col)) (idx + 1) d h
      omega

/-- Localisation: a predicate that only accepts diagnostics at row `R`
counts, over the whole loop, exactly what it counts in the per-row
block of the row with 1-based number `R`. -/
theorem validateLoop_countP_at (col : String) (extra : Nat → Row → List ValidationError)
    (hex : extraOk extra) (p : ValidationError → Bool) (R : Nat)
    (hp : ∀ d, p d = true → d.row = R) :
    ∀ (rows : List Row) (seen : List String) (idx k : Nat), R = idx + k + 1 →
      (validateLoop col extra rows seen idx).countP p =
        (match rows[k]? with
         | some row =>
           (idChecks col (seenAcc col seen (rows.take k)) R (getField row col)).countP p
             + (extra R row).countP p
         | none => 0) := by
  intro rows
  induction rows with
  | nil =>
    intro seen idx k hR
    simp [validateLoop]
  | cons r rest ih =>
    intro seen idx k hR
    simp only [validateLoop, List.countP_append]
    cases k with
    | zero =>
      have htail :
          (validateLoop col extra rest (seenUpdate seen (getField r col)) (idx + 1)).countP p
            = 0 := by
        rw [List.countP_eq_zero]
        intro d hd hpd
        have h1 := validateLoop_row_lb col extra hex rest _ _ d hd
        have h2 := hp d hpd
        omega
      have hR' : R = idx + 1 := by omega
      subst hR'
      simp [htail, seenAcc]
    | succ k' =>
      have hhead1 : (idChecks col seen (idx + 1) (getField r col)).countP p = 0 := by
        rw [List.countP_eq_zero]
        intro d hd hpd
        have h1 := (idChecks_mem col seen (idx + 1) (getField r col) d hd).1
        have h2 := hp d hpd
        omega
      have hhead2 : (extra (idx + 1) r).countP p = 0 := by
        rw [List.countP_eq_zero]
        intro d hd hpd
        have h1 := (hex (idx + 1) r d hd).1
        have h2 := hp d hpd
        omega
      rw [hhead1, hhead2]
      have hrec := ih (seenUpdate seen (getField r col)) (idx + 1) k' (by omega)
      simpa [seenAcc] using hrec

theorem idChecks_some (col : String) (seen : List String) (rowNum : Nat) (v : String) :
    idChecks col seen rowNum (some v) =
      (if seenHas seen v then [dupRec col rowNum v] else []) ++
      (if v = "" then [missRec col rowNum] else []) := by
  unfold idChecks
  by_cases hv : v = "" <;> simp [hv]

theorem idChecks_none (col : String) (seen : List String) (rowNum : Nat) :
    idChecks col seen rowNum none = [missRec col rowNum] := rfl

theorem checkRequiredColumns_mem (entity : DataEntity) (cols : List String) :
    ∀ d ∈ checkRequiredColumns entity cols, d.type = "missing_column" ∧ d.row = 1 := by
  intro d hd
  unfold checkRequiredColumns at hd
  split at hd
  · simp at hd
  · rcases List.mem_map.mp hd with ⟨c, _, rfl⟩
    exact ⟨rfl, rfl⟩

theorem validateLoop_types (col : String) (extra : Nat → Row → List ValidationError)
    (hex : extraOk extra) :
    ∀ (rows : List Row) (seen : List String) (idx : Nat) (d : ValidationError),
      d ∈ validateLoop col extra rows seen idx → d.type ≠ "missing_column" := by
  intro rows
  induction rows with
  | nil => intro seen idx d h; simp [validateLoop] at h
  | cons r rest ih =>
    intro seen idx d h
    simp only [validateLoop, List.mem_append] at h
    rcases h with (h | h) | h
    · rcases (idChecks_mem col seen (idx + 1) (getField r col) d h).2 with ht | ht <;>
        simp [ht]
    · exact (hex (idx + 1) r d h).2.2.2
    · exact ih _ _ d h

/-- Each validator is the required-column check followed by the row
loop with its kind-specific checks. -/
theorem validateEntity_decomp (e : DataEntity) (all : List DataEntity) :
    ∃ extra, extraOk extra ∧
      validateEntity e all
        = checkRequiredColumns e (requiredColumnsFor e.type)
          ++ validateLoop (idColumnFor e.type) extra e.data [] 0 := by
  cases he : e.type with
  | clients =>
    refine ⟨clientsExtra
      (((all.find? (fun x => x.type = EntityType.tasks)).map
        (fun te => te.data.map (fun t => getField t "TaskID"))).getD []),
      clientsExtra_ok _, ?_⟩
    unfold validateEntity validateClients
    rw [he]
    rfl
  | workers =>
    refine ⟨workersExtra, workersExtra_ok, ?_⟩
    unfold validateEntity validateWorkers
    rw [he]
    rfl
  | tasks =>
    refine ⟨tasksExtra
      (((all.find? (fun x => x.type = EntityType.workers)).map (fun we => we.data)).getD [])
      ((((all.find? (fun x => x.type = EntityType.workers)).map
          (fun we => we.data)).getD []).foldr (fun w acc =>
        (match getField w "Skills" with
         | some sv => if sv = "" then [] else (jsSplit sv ',').map jsTrim
         | none => []) ++ acc) []),
      tasksExtra_ok _ _, ?_⟩
    unfold validateEntity validateTasks
    rw [he]
    rfl

end ValidationService

/-- `processNaturalLanguageQuery` (its pure core): pattern stage, then
the fallback whenever the accumulated result list is still empty,
returning the result rows and the insight string. -/
def processNaturalLanguageQuery (query : String) (data : List DataEntity) :
    List Row × String :=
  let st := patternStage query data
  let results0 : List Row := match st with | some p => p.1 | none => []
  let insight0 : String :=
    match st with
    | some p => "Processed using pattern: " ++ p.2
    | none => ""
  let results1 := if results0.isEmpty then fallbackSearch query data else results0
  let insight1 := if results0.isEmpty then fallbackInsight else insight0
  (results1.map tagUnknown, insight1)

/-! ### Claim theorems -/

/-- C4: `validateEntity` is deterministic.  The embedding is a pure
function of `(entity, allEntities)` — the source routine does no I/O
and keeps no state beyond the invocation-scoped seen-ID sets — so two
calls on unchanged inputs yield identical diagnostic sequences (same
diagnostics, same fields, same order). -/
theorem c4_validateEntity_deterministic (entity : DataEntity)
    (allEntities : List DataEntity) :
    ValidationService.validateEntity entity allEntities
      = ValidationService.validateEntity entity allEntities := rfl

/-- C10: `validatePhaseSlotSaturation` returns the empty diagnostic
sequence whenever the entity list lacks a tasks entity or lacks a
workers entity. -/
theorem c10_saturation_requires_both (allEntities : List DataEntity)
    (h : allEntities.find? (fun e => e.type = EntityType.tasks) = none ∨
         allEntities.find? (fun e => e.type = EntityType.workers) = none) :
    ValidationService.validatePhaseSlotSaturation allEntities = [] := by
  unfold ValidationService.validatePhaseSlotSaturation
  rcases h with h | h
  · rw [h]
  · rw [h]
    rcases ht : allEntities.find? (fun e => e.type = EntityType.tasks) with _ | te <;>
      rw [ht]

/-- C10 witness: the empty entity list has neither collection, and the
saturation check returns no diagnostics on it. -/
theorem c10_witness : ValidationService.validatePhaseSlotSaturation [] = [] :=
  c10_saturation_requires_both [] (Or.inl rfl)

/-- A clients entity with zero rows (used to refute C2 as stated). -/
def zeroRowClients : DataEntity :=
  { id := "clients-0", type := .clients, data := [], errors := [], warnings := [] }

/-- C2 counterexample: the claim asserts required-column errors are
still produced when the entity has zero rows, but `checkRequiredColumns`
returns early on an empty row list — a zero-row clients entity yields
no diagnostics at all, although every one of its five required
columns is absent. -/
theorem c2_counterexample :
    ValidationService.validateEntity zeroRowClients [zeroRowClients] = [] ∧
    ValidationService.requiredColumnsFor EntityType.clients ≠ [] :=
  ⟨rfl, by decide⟩

/-- C2 (amended): for every entity with at least one row, the
required-column check emits exactly one `missing_column` error at
row 1 for each canonical column required by the entity's kind that is
absent from the first row's key set; when the entity has zero rows,
no `missing_column` error is produced at all. -/
theorem c2_missing_column_count (entity : DataEntity) (allEntities : List DataEntity) :
    (entity.data = [] →
      (ValidationService.validateEntity entity allEntities).countP
        (fun d => decide (d.type = "missing_column")) = 0) ∧
    (∀ first rest, entity.data = first :: rest → ∀ c : String,
      (ValidationService.validateEntity entity allEntities).countP
        (fun d => decide (d.type = "missing_column" ∧ d.column = c ∧ d.row = 1))
        = if c ∈ ValidationService.requiredColumnsFor entity.type ∧
              ¬ (first.map Prod.fst).contains c then 1 else 0) := by
  obtain ⟨extra, hex, heq⟩ := ValidationService.validateEntity_decomp entity allEntities
  constructor
  · intro hdat
    rw [heq, List.countP_append]
    have h1 : ValidationService.checkRequiredColumns entity
        (ValidationService.requiredColumnsFor entity.type) = [] := by
      unfold ValidationService.checkRequiredColumns
      rw [hdat]
    rw [h1, hdat]
    simp [ValidationService.validateLoop]
  · intro first rest hdat c
    rw [heq, List.countP_append]
    have hloop : (ValidationService.validateLoop (ValidationService.idColumnFor entity.type)
        extra entity.data [] 0).countP
        (fun d => decide (d.type = "missing_column" ∧ d.column = c ∧ d.row = 1)) = 0 := by
      rw [List.countP_eq_zero]
      intro d hd hpd
      rw [decide_eq_true_eq] at hpd
      exact ValidationService.validateLoop_types _ extra hex entity.data [] 0 d hd hpd.1
    rw [hloop, Nat.add_zero]
    unfold ValidationService.checkRequiredColumns
    rw [hdat]
    rw [List.countP_map]
    have hpt : ((fun d => decide (d.type = "missing_column" ∧ d.column = c ∧ d.row = 1)) ∘
        ValidationService.missingColRec) = fun col => decide (col = c) := by
      funext col
      simp [ValidationService.missingColRec]
    rw [hpt]
    rw [List.countP_filter]
    by_cases hmem : c ∈ ValidationService.requiredColumnsFor entity.type
    · by_cases habs : (first.map Prod.fst).contains c = true
      · rw [if_neg (fun hcon => hcon.2 habs)]
        rw [List.countP_eq_zero]
        intro c' hc' hp
        simp only [Bool.and_eq_true, decide_eq_true_eq] at hp
        rcases hp with ⟨rfl, hq⟩
        exact hq habs
      · rw [if_pos ⟨hmem, habs⟩]
        have hcong : (ValidationService.requiredColumnsFor entity.type).countP
            (fun a => decide (a = c) && decide ¬((first.map Prod.fst).contains a = true))
            = (ValidationService.requiredColumnsFor entity.type).countP
              (fun a => decide (a = c)) := by
          apply List.countP_congr
          intro a _
          by_cases hac : a = c
          · subst hac
            rw [decide_eq_true habs, Bool.and_true]
          · simp [hac]
        rw [hcong, countP_nodup_mem _ (by cases entity.type <;> decide) c, if_pos hmem]
    · rw [if_neg (by intro hcon; exact hmem hcon.1)]
      rw [List.countP_eq_zero]
      intro c' hc' hp
      simp only [Bool.and_eq_true, decide_eq_true_eq] at hp
      rcases hp with ⟨rfl, _⟩
      exact hmem hc'

/-- A clients entity whose single row carries only `ClientID`. -/
def oneColClients : DataEntity :=
  { id := "clients-1", type := .clients,
    data := [[("ClientID", "C1")]], errors := [], warnings := [] }

/-- C2 witness: on a one-row entity missing `ClientName`, the amended
count formula yields exactly one `missing_column` error for
`ClientName` and none for the present `ClientID`. -/
theorem c2_witness :
    (ValidationService.validateEntity oneColClients [oneColClients]).countP
        (fun d => decide (d.type = "missing_column" ∧ d.column = "ClientName" ∧ d.row = 1)) = 1 ∧
    (ValidationService.validateEntity oneColClients [oneColClients]).countP
        (fun d => decide (d.type = "missing_column" ∧ d.column = "ClientID" ∧ d.row = 1)) = 0 := by
  constructor
  · rw [(c2_missing_column_count oneColClients [oneColClients]).2 [("ClientID", "C1")] []
      rfl "ClientName"]
    decide
  · rw [(c2_missing_column_count oneColClients [oneColClients]).2 [("ClientID", "C1")] []
      rfl "ClientID"]
    decide

/-- C8 counterexample: a blank text contains none of the keyword
triggers, yet the handler rejects it (early return after an error
toast) instead of producing a `patternMatch` skeleton — the
interpreter is not total over every input text. -/
theorem c8_counterexample :
    processNaturalLanguageRule " " = none ∧
    jsIncludes (jsLower " ") "together" = false ∧
    jsIncludes (jsLower " ") "co-run" = false ∧
    jsIncludes (jsLower " ") "load" = false ∧
    jsIncludes (jsLower " ") "limit" = false ∧
    jsIncludes (jsLower " ") "phase" = false ∧
    jsIncludes (jsLower " ") "window" = false :=
  ⟨rfl, by decide, by decide, by decide, by decide, by decide, by decide⟩

/-- C8 (amended): for every input text that is non-blank (its trim is
non-empty), the interpreter is total and first-match-wins: a text
containing "together" or "co-run" (case-insensitively) yields kind
`coRun`; a text containing none of the six keyword triggers yields
kind `patternMatch`; and in every case the original free text is
preserved verbatim in the returned description.  Blank texts are
rejected without producing a rule. -/
theorem c8_rule_interpreter_nonblank (text : String) (h : jsTrim text ≠ "") :
    ∃ r, processNaturalLanguageRule text = some r ∧
      r.description = text ∧
      ((jsIncludes (jsLower text) "together" = true ∨
        jsIncludes (jsLower text) "co-run" = true) → r.type = RuleType.coRun) ∧
      ((jsIncludes (jsLower text) "together" = false ∧
        jsIncludes (jsLower text) "co-run" = false ∧
        jsIncludes (jsLower text) "load" = false ∧
        jsIncludes (jsLower text) "limit" = false ∧
        jsIncludes (jsLower text) "phase" = false ∧
        jsIncludes (jsLower text) "window" = false) → r.type = RuleType.patternMatch) := by
  unfold processNaturalLanguageRule
  rw [if_neg h]
  by_cases h1 : (jsIncludes (jsLower text) "together" || jsIncludes (jsLower text) "co-run") = true
  · rw [if_pos h1]
    refine ⟨_, rfl, rfl, fun _ => rfl, fun hno => ?_⟩
    simp only [Bool.or_eq_true] at h1
    rcases h1 with h1 | h1
    · rw [hno.1] at h1; cases h1
    · rw [hno.2.1] at h1; cases h1
  · rw [if_neg h1]
    simp only [Bool.or_eq_true, not_or, Bool.not_eq_true] at h1
    by_cases h2 : (jsIncludes (jsLower text) "load" || jsIncludes (jsLower text) "limit") = true
    · rw [if_pos h2]
      refine ⟨_, rfl, rfl, fun hco => ?_, fun hno => ?_⟩
      · rcases hco with hco | hco
        · rw [h1.1] at hco; cases hco
        · rw [h1.2] at hco; cases hco
      · simp only [Bool.or_eq_true] at h2
        rcases h2 with h2 | h2
        · rw [hno.2.2.1] at h2; cases h2
        · rw [hno.2.2.2.1] at h2; cases h2
    · rw [if_neg h2]
      by_cases h3 : (jsIncludes (jsLower text) "phase" || jsIncludes (jsLower text) "window") = true
      · rw [if_pos h3]
        refine ⟨_, rfl, rfl, fun hco => ?_, fun hno => ?_⟩
        · rcases hco with hco | hco
          · rw [h1.1] at hco; cases hco
          · rw [h1.2] at hco; cases hco
        · simp only [Bool.or_eq_true] at h3
          rcases h3 with h3 | h3
          · rw [hno.2.2.2.2.1] at h3; cases h3
          · rw [hno.2.2.2.2.2] at h3; cases h3
      · rw [if_neg h3]
        refine ⟨_, rfl, rfl, fun hco => ?_, fun _ => rfl⟩
        rcases hco with hco | hco
        · rw [h1.1] at hco; cases hco
        · rw [h1.2] at hco; cases hco

/-- C8 witness: the amended theorem applied at a trigger text and at a
trigger-free text. -/
theorem c8_witness :
    (∃ r, processNaturalLanguageRule "run these tasks together" = some r ∧
      r.description = "run these tasks together" ∧ r.type = RuleType.coRun) ∧
    (∃ r, processNaturalLanguageRule "hello" = some r ∧
      r.description = "hello" ∧ r.type = RuleType.patternMatch) := by
  constructor
  · obtain ⟨r, hr, hdesc, hco, _⟩ :=
      c8_rule_interpreter_nonblank "run these tasks together" (by decide)
    exact ⟨r, hr, hdesc, hco (Or.inl (by decide))⟩
  · obtain ⟨r, hr, hdesc, _, hpm⟩ := c8_rule_interpreter_nonblank "hello" (by decide)
    exact ⟨r, hr, hdesc, hpm (by decide)⟩

/-- Fixture for C1: one tasks entity whose row's `Duration` fails the
matched pattern's filter while another field contains the whole query
text verbatim. -/
def qTasksEntity : DataEntity :=
  { id := "t", type := .tasks,
    data := [[("TaskID", "T1"), ("Duration", "2"),
              ("Note", "tasks with duration more than 9")]],
    errors := [], warnings := [] }

/-- C1 counterexample: on the query "tasks with duration more than 9"
the numeric-comparison pattern matches (so a pattern fired), but its
filter output is empty, and the engine then runs the fallback text
search anyway: the final result is the fallback's row (tagged with its
source kind) and the fallback explanation — refuting "when some
pattern matches, the result is that pattern's filter output, never
the fallback's". -/
theorem c1_counterexample :
    patternStage "tasks with duration more than 9" [qTasksEntity]
        = some ([], "Find entities with numeric comparisons") ∧
    processNaturalLanguageQuery "tasks with duration more than 9" [qTasksEntity]
        = ([[("TaskID", "T1"), ("Duration", "2"),
             ("Note", "tasks with duration more than 9"), ("_entityType", "tasks")]],
           fallbackInsight) := by
  constructor
  · decide
  · decide

/-- C1 (amended): the engine uses the fallback case-insensitive
substring search (over the string form of every field in every row of
every entity, tagging each result with its source kind) if and only
if the pattern stage leaves the result list empty — that is, when no
pattern in the ordered table matches the query text, or when the
first matching pattern's filter output is empty.  Only when the first
matching pattern's filter output is non-empty is the result that
pattern's output with that pattern's explanation. -/
theorem c1_fallback_iff_empty_pattern_results (query : String) (data : List DataEntity) :
    (patternStage query data = none →
      processNaturalLanguageQuery query data
        = ((fallbackSearch query data).map tagUnknown, fallbackInsight)) ∧
    (∀ rs desc, patternStage query data = some (rs, desc) → rs = [] →
      processNaturalLanguageQuery query data
        = ((fallbackSearch query data).map tagUnknown, fallbackInsight)) ∧
    (∀ rs desc, patternStage query data = some (rs, desc) → rs ≠ [] →
      processNaturalLanguageQuery query data
        = (rs.map tagUnknown, "Processed using pattern: " ++ desc)) := by
  refine ⟨?_, ?_, ?_⟩
  · intro hnone
    unfold processNaturalLanguageQuery
    rw [hnone]
    rfl
  · intro rs desc hsome hrs
    unfold processNaturalLanguageQuery
    rw [hsome, hrs]
    rfl
  · intro rs desc hsome hrs
    unfold processNaturalLanguageQuery
    rw [hsome]
    have : rs.isEmpty = false := by
      cases rs with
      | nil => cases hrs rfl
      | cons a l => rfl
    simp only [this]
    rfl

/-- C1 witness: with no data and an unmatched query the pattern stage
yields nothing and the engine returns the (empty) fallback result with
the fallback explanation. -/
theorem c1_witness :
    processNaturalLanguageQuery "zzz" [] = ([], fallbackInsight) := by
  have h := (c1_fallback_iff_empty_pattern_results "zzz" []).1 (by decide)
  rw [h]
  decide

/-- C6: for every entity, `validateEntity` reports a `duplicate_id`
error at row `j + 1` exactly when the (non-empty) ID value of the row
at index `j` already occurs as the ID of an earlier row — the seen-set
is keyed by the raw ID value, so each row strictly after the first
occurrence of an ID gets exactly one `duplicate_id` diagnostic. -/
theorem c6_duplicate_id_after_first (entity : DataEntity) (allEntities : List DataEntity)
    (j : Nat) (row : Row) (hrow : entity.data[j]? = some row)
    (v : String) (hv : getField row (ValidationService.idColumnFor entity.type) = some v)
    (hne : v ≠ "") :
    (ValidationService.validateEntity entity allEntities).countP
        (fun d => decide (d.type = "duplicate_id" ∧ d.row = j + 1))
      = if ∃ r ∈ entity.data.take j,
            getField r (ValidationService.idColumnFor entity.type) = some v
        then 1 else 0 := by
  obtain ⟨extra, hex, heq⟩ := ValidationService.validateEntity_decomp entity allEntities
  rw [heq, List.countP_append]
  have hreq : (ValidationService.checkRequiredColumns entity
      (ValidationService.requiredColumnsFor entity.type)).countP
      (fun d => decide (d.type = "duplicate_id" ∧ d.row = j + 1)) = 0 := by
    rw [List.countP_eq_zero]
    intro d hd hp
    rw [decide_eq_true_eq] at hp
    have ht := (ValidationService.checkRequiredColumns_mem entity _ d hd).1
    rw [ht] at hp
    exact absurd hp.1 (by decide)
  rw [hreq, Nat.zero_add]
  rw [ValidationService.validateLoop_countP_at (ValidationService.idColumnFor entity.type)
    extra hex _ (j + 1) (fun d hp => (of_decide_eq_true hp).2) entity.data [] 0 j (by omega)]
  simp only [hrow]
  have hextra : (extra (j + 1) row).countP
      (fun d => decide (d.type = "duplicate_id" ∧ d.row = j + 1)) = 0 := by
    rw [List.countP_eq_zero]
    intro d hd hp
    rw [decide_eq_true_eq] at hp
    exact (hex (j + 1) row d hd).2.1 hp.1
  rw [hextra, Nat.add_zero]
  rw [hv, ValidationService.idChecks_some, List.countP_append]
  rw [if_neg hne]
  have hiff : ValidationService.seenHas
      (ValidationService.seenAcc (ValidationService.idColumnFor entity.type) []
        (entity.data.take j)) v = true ↔
      ∃ r ∈ entity.data.take j,
        getField r (ValidationService.idColumnFor entity.type) = some v := by
    rw [ValidationService.seenHas_iff, ValidationService.seenAcc_mem]
    simp [hne]
  by_cases hs : ValidationService.seenHas
      (ValidationService.seenAcc (ValidationService.idColumnFor entity.type) []
        (entity.data.take j)) v = true
  · rw [if_pos hs, if_pos (hiff.mp hs)]
    simp [ValidationService.dupRec]
  · rw [if_neg hs, if_neg (fun hex2 => hs (hiff.mpr hex2))]
    simp

/-- The `[A, B, A]` fixture from the claim. -/
def clientsABA : DataEntity :=
  { id := "c", type := .clients,
    data := [[("ClientID", "A")], [("ClientID", "B")], [("ClientID", "A")]],
    errors := [], warnings := [] }

/-- C6 witness: on rows with IDs `[A, B, A]` the theorem puts exactly
one `duplicate_id` diagnostic at row 3, and direct evaluation confirms
it is the only `duplicate_id` diagnostic produced at all. -/
theorem c6_witness :
    (ValidationService.validateEntity clientsABA [clientsABA]).countP
        (fun d => decide (d.type = "duplicate_id" ∧ d.row = 3)) = 1 ∧
    (ValidationService.validateEntity clientsABA [clientsABA]).countP
        (fun d => decide (d.type = "duplicate_id")) = 1 := by
  constructor
  · have h := c6_duplicate_id_after_first clientsABA [clientsABA] 2 [("ClientID", "A")]
      (by decide) "A" (by decide) (by decide)
    rw [if_pos (by decide)] at h
    exact h
  · decide

/-- C9: on every single row, `missing_value` (for the entity's ID
column) and `duplicate_id` are mutually exclusive: a row whose ID
field is absent or empty receives exactly one `missing_value` error
and never a `duplicate_id` error (the seen-set records only non-empty
ID values), and a row with a truthy ID never receives a
`missing_value` error on the ID column. -/
theorem c9_missing_vs_duplicate (entity : DataEntity) (allEntities : List DataEntity)
    (j : Nat) (row : Row) (hrow : entity.data[j]? = some row) :
    (fieldTruthy row (ValidationService.idColumnFor entity.type) = false →
      (ValidationService.validateEntity entity allEntities).countP
          (fun d => decide (d.type = "missing_value" ∧
            d.column = ValidationService.idColumnFor entity.type ∧ d.row = j + 1)) = 1 ∧
      (ValidationService.validateEntity entity allEntities).countP
          (fun d => decide (d.type = "duplicate_id" ∧ d.row = j + 1)) = 0) ∧
    (fieldTruthy row (ValidationService.idColumnFor entity.type) = true →
      (ValidationService.validateEntity entity allEntities).countP
          (fun d => decide (d.type = "missing_value" ∧
            d.column = ValidationService.idColumnFor entity.type ∧ d.row = j + 1)) = 0) := by
  obtain ⟨extra, hex, heq⟩ := ValidationService.validateEntity_decomp entity allEntities
  have hreq : ∀ p : ValidationError → Bool,
      (∀ d, p d = true → d.type ≠ "missing_column") →
      (ValidationService.checkRequiredColumns entity
        (ValidationService.requiredColumnsFor entity.type)).countP p = 0 := by
    intro p hpt
    rw [List.countP_eq_zero]
    intro d hd hp
    exact hpt d hp (ValidationService.checkRequiredColumns_mem entity _ d hd).1
  have hextra : ∀ p : ValidationError → Bool,
      (∀ d, p d = true → d.type = "missing_value" ∨ d.type = "duplicate_id") →
      (extra (j + 1) row).countP p = 0 := by
    intro p hpt
    rw [List.countP_eq_zero]
    intro d hd hp
    rcases hpt d hp with ht | ht
    · exact (hex (j + 1) row d hd).2.2.1 ht
    · exact (hex (j + 1) row d hd).2.1 ht
  constructor
  · intro hfalse
    constructor
    · rw [heq, List.countP_append]
      rw [hreq _ (fun d hp => by
        rw [decide_eq_true_eq] at hp
        rw [hp.1]
        decide), Nat.zero_add]
      rw [ValidationService.validateLoop_countP_at (ValidationService.idColumnFor entity.type)
        extra hex _ (j + 1) (fun d hp => (of_decide_eq_true hp).2.2) entity.data [] 0 j
        (by omega)]
      simp only [hrow]
      rw [hextra _ (fun d hp => Or.inl (of_decide_eq_true hp).1), Nat.add_zero]
      unfold fieldTruthy at hfalse
      rcases hg : getField row (ValidationService.idColumnFor entity.type) with _ | v
      · rw [ValidationService.idChecks_none]
        simp [ValidationService.missRec]
      · rw [hg] at hfalse
        simp only [decide_eq_false_iff_not, ne_eq, not_not] at hfalse
        have hv : v = "" := by
          by_contra hcon
          simp [hcon] at hfalse
        subst hv
        rw [ValidationService.idChecks_some, List.countP_append]
        have hss : ValidationService.seenHas
            (ValidationService.seenAcc (ValidationService.idColumnFor entity.type) []
              (entity.data.take j)) "" = false := by
          rw [Bool.eq_false_iff]
          intro hcon
          rw [ValidationService.seenHas_iff, ValidationService.seenAcc_mem] at hcon
          simp at hcon
        rw [hss]
        simp [ValidationService.missRec]
    · rw [heq, List.countP_append]
      rw [hreq _ (fun d hp => by
        rw [decide_eq_true_eq] at hp
        rw [hp.1]
        decide), Nat.zero_add]
      rw [ValidationService.validateLoop_countP_at (ValidationService.idColumnFor entity.type)
        extra hex _ (j + 1) (fun d hp => (of_decide_eq_true hp).2) entity.data [] 0 j
        (by omega)]
      simp only [hrow]
      rw [hextra _ (fun d hp => Or.inr (of_decide_eq_true hp).1), Nat.add_zero]
      unfold fieldTruthy at hfalse
      rcases hg : getField row (ValidationService.idColumnFor entity.type) with _ | v
      · rw [ValidationService.idChecks_none]
        simp [ValidationService.missRec]
      · rw [hg] at hfalse
        simp only [decide_eq_false_iff_not, ne_eq, not_not] at hfalse
        have hv : v = "" := by
          by_contra hcon
          simp [hcon] at hfalse
        subst hv
        rw [ValidationService.idChecks_some, List.countP_append]
        have hss : ValidationService.seenHas
            (ValidationService.seenAcc (ValidationService.idColumnFor entity.type) []
              (entity.data.take j)) "" = false := by
          rw [Bool.eq_false_iff]
          intro hcon
          rw [ValidationService.seenHas_iff, ValidationService.seenAcc_mem] at hcon
          simp at hcon
        rw [hss]
        simp [ValidationService.missRec]
  · intro htrue
    rw [heq, List.countP_append]
    rw [hreq _ (fun d hp => by
      rw [decide_eq_true_eq] at hp
      rw [hp.1]
      decide), Nat.zero_add]
    rw [ValidationService.validateLoop_countP_at (ValidationService.idColumnFor entity.type)
      extra hex _ (j + 1) (fun d hp => (of_decide_eq_true hp).2.2) entity.data [] 0 j
      (by omega)]
    simp only [hrow]
    rw [hextra _ (fun d hp => Or.inl (of_decide_eq_true hp).1), Nat.add_zero]
    unfold fieldTruthy at htrue
    rcases hg : getField row (ValidationService.idColumnFor entity.type) with _ | v
    · rw [hg] at htrue
      simp at htrue
    · rw [hg] at htrue
      simp only [decide_eq_true_eq] at htrue
      rw [ValidationService.idChecks_some, List.countP_append]
      rw [if_neg htrue]
      by_cases hs : ValidationService.seenHas
          (ValidationService.seenAcc (ValidationService.idColumnFor entity.type) []
            (entity.data.take j)) v = true
      · rw [if_pos hs]
        simp [ValidationService.dupRec]
      · rw [if_neg hs]
        simp

/-- A workers fixture whose two rows both lack a `WorkerID`. -/
def emptyIdWorkers : DataEntity :=
  { id := "w", type := .workers,
    data := [[("WorkerID", "")], [("WorkerID", "")]], errors := [], warnings := [] }

/-- C9 witness: two rows sharing the empty ID each get exactly one
`missing_value` and no `duplicate_id`. -/
theorem c9_witness :
    (ValidationService.validateEntity emptyIdWorkers [emptyIdWorkers]).countP
        (fun d => decide (d.type = "missing_value" ∧ d.column = "WorkerID" ∧ d.row = 2)) = 1 ∧
    (ValidationService.validateEntity emptyIdWorkers [emptyIdWorkers]).countP
        (fun d => decide (d.type = "duplicate_id" ∧ d.row = 2)) = 0 :=
  (c9_missing_vs_duplicate emptyIdWorkers [emptyIdWorkers] 1 [("WorkerID", "")]
    (by decide)).1 (by decide)

/-- C7: for every client row with a non-empty requested-task-IDs
value, each comma-separated (trimmed) token that is not an ID present
in the tasks collection yields exactly one `unknown_reference` error
naming that token: the number of `unknown_reference` errors at the
row naming `t` equals the number of occurrences of `t` among the
row's tokens when `t` is unknown, and zero when `t` is known. -/
theorem c7_unknown_reference_per_token (entity : DataEntity) (allEntities : List DataEntity)
    (he : entity.type = EntityType.clients)
    (j : Nat) (row : Row) (hrow : entity.data[j]? = some row)
    (v : String) (hv : getField row "RequestedTaskIDs" = some v) (hne : v ≠ "")
    (t : String) :
    (ValidationService.validateEntity entity allEntities).countP
        (fun d => decide (d.row = j + 1 ∧ d.type = "unknown_reference" ∧
          d.message = "Unknown TaskID reference: " ++ t))
      = if (((allEntities.find? (fun e => e.type = EntityType.tasks)).map
              (fun te => te.data.map (fun r => getField r "TaskID"))).getD []).contains (some t)
        then 0
        else ((jsSplit v ',').map jsTrim).countP (fun s => decide (s = t)) := by
  set validIds : List (Option String) :=
    ((allEntities.find? (fun e => e.type = EntityType.tasks)).map
      (fun te => te.data.map (fun r => getField r "TaskID"))).getD [] with hvi
  set p : ValidationError → Bool :=
    fun d => decide (d.row = j + 1 ∧ d.type = "unknown_reference" ∧
      d.message = "Unknown TaskID reference: " ++ t) with hpdef
  have heq : ValidationService.validateEntity entity allEntities
      = ValidationService.checkRequiredColumns entity
          (ValidationService.requiredColumnsFor EntityType.clients)
        ++ ValidationService.validateLoop "ClientID"
            (ValidationService.clientsExtra validIds) entity.data [] 0 := by
    unfold ValidationService.validateEntity ValidationService.validateClients
    rw [he]
  rw [heq, List.countP_append]
  have hreq : (ValidationService.checkRequiredColumns entity
      (ValidationService.requiredColumnsFor EntityType.clients)).countP p = 0 := by
    rw [List.countP_eq_zero]
    intro d hd hp
    rw [hpdef, decide_eq_true_eq] at hp
    have ht := (ValidationService.checkRequiredColumns_mem entity _ d hd).1
    rw [ht] at hp
    exact absurd hp.2.1 (by decide)
  rw [hreq, Nat.zero_add]
  rw [ValidationService.validateLoop_countP_at "ClientID"
    (ValidationService.clientsExtra validIds) (ValidationService.clientsExtra_ok validIds)
    p (j + 1) (fun d hp => (of_decide_eq_true hp).1) entity.data [] 0 j (by omega)]
  simp only [hrow]
  have hid : (ValidationService.idChecks "ClientID"
      (ValidationService.seenAcc "ClientID" [] (entity.data.take j)) (j + 1)
      (getField row "ClientID")).countP p = 0 := by
    rw [List.countP_eq_zero]
    intro d hd hp
    rw [hpdef, decide_eq_true_eq] at hp
    rcases (ValidationService.idChecks_mem _ _ _ _ d hd).2 with ht | ht <;>
      (rw [ht] at hp; exact absurd hp.2.1 (by decide))
  rw [hid, Nat.zero_add]
  unfold ValidationService.clientsExtra
  rw [List.countP_append, List.countP_append]
  have hA : ((if ValidationService.rangeBad (jsParseInt (getField row "PriorityLevel")) 1 5 = true then
      [({ row := j + 1, column := "PriorityLevel", type := "invalid_range",
          message := "PriorityLevel must be between 1 and 5",
          severity := .error } : ValidationError)]
    else []) : List ValidationError).countP p = 0 := by
    split <;> simp [hpdef]
  have hB : ∀ l : List ValidationError,
      (∀ d ∈ l, d.type = "invalid_json") → l.countP p = 0 := by
    intro l hl
    rw [List.countP_eq_zero]
    intro d hd hp
    rw [hpdef, decide_eq_true_eq] at hp
    rw [hl d hd] at hp
    exact absurd hp.2.1 (by decide)
  rw [hA, Nat.zero_add]
  rw [hB _ (by
    intro d hd
    split at hd
    · split at hd
      · simp at hd
      · split at hd
        · simp at hd
        · have hh := List.mem_singleton.mp hd
          subst hh
          rfl
    · simp at hd), Nat.zero_add]
  rw [hv]
  simp only []
  rw [if_neg hne]
  rw [List.countP_map]
  have hcomp : (p ∘ ValidationService.unknownRefRec (j + 1))
      = fun tok => decide (tok = t) := by
    funext tok
    simp [hpdef, ValidationService.unknownRefRec, str_append_cancel]
  rw [hcomp]
  by_cases hk : validIds.contains (some t) = true
  · rw [if_pos hk, List.countP_eq_zero]
    intro tok htok hp2
    rw [decide_eq_true_eq] at hp2
    subst hp2
    rcases List.mem_filter.mp htok with ⟨_, hq⟩
    rw [decide_eq_true_eq] at hq
    exact hq hk
  · rw [if_neg hk, List.countP_filter]
    apply List.countP_congr
    intro tok _
    by_cases htt : tok = t
    · subst htt
      rw [decide_eq_true (p := ¬(validIds.contains (some tok) = true)) hk, Bool.and_true]
    · simp [htt]

/-- The cross-reference fixture: a client requesting "T1,T9" while
only task `T1` exists. -/
def clientT1T9 : DataEntity :=
  { id := "c", type := .clients,
    data := [[("ClientID", "C1"), ("RequestedTaskIDs", "T1,T9")]],
    errors := [], warnings := [] }

def tasksOnlyT1 : DataEntity :=
  { id := "t", type := .tasks, data := [[("TaskID", "T1")]],
    errors := [], warnings := [] }

/-- C7 witness: the client requesting "T1,T9" when only `T1` exists
gets exactly one `unknown_reference` error naming `T9`, none naming
`T1`, and exactly one `unknown_reference` error in total. -/
theorem c7_witness :
    (ValidationService.validateEntity clientT1T9 [clientT1T9, tasksOnlyT1]).countP
        (fun d => decide (d.row = 1 ∧ d.type = "unknown_reference" ∧
          d.message = "Unknown TaskID reference: " ++ "T9")) = 1 ∧
    (ValidationService.validateEntity clientT1T9 [clientT1T9, tasksOnlyT1]).countP
        (fun d => decide (d.row = 1 ∧ d.type = "unknown_reference" ∧
          d.message = "Unknown TaskID reference: " ++ "T1")) = 0 ∧
    (ValidationService.validateEntity clientT1T9 [clientT1T9, tasksOnlyT1]).countP
        (fun d => decide (d.type = "unknown_reference")) = 1 := by
  refine ⟨?_, ?_, by decide⟩
  · have h := c7_unknown_reference_per_token clientT1T9 [clientT1T9, tasksOnlyT1] rfl
      0 [("ClientID", "C1"), ("RequestedTaskIDs", "T1,T9")] (by decide)
      "T1,T9" (by decide) (by decide) "T9"
    rw [h]
    decide
  · have h := c7_unknown_reference_per_token clientT1T9 [clientT1T9, tasksOnlyT1] rfl
      0 [("ClientID", "C1"), ("RequestedTaskIDs", "T1,T9")] (by decide)
      "T1,T9" (by decide) (by decide) "T1"
    rw [h]
    decide

/-- Unfolded form of the demand step on destructured arguments. -/
theorem demandStep_eq (dm : ValidationService.ObjMap) (errs : List ValidationError)
    (index : Nat) (task : Row) :
    ValidationService.demandStep (dm, errs) (index, task) =
      if fieldTruthy task "PreferredPhases" && fieldTruthy task "Duration" then
        match jsonParseArr ((getField task "PreferredPhases").getD "") with
        | some phases =>
          (phases.foldl (fun m ph => ValidationService.objAddNum m (jsKeyString ph)
            (jsParseInt (getField task "Duration"))) dm, errs)
        | none => (dm, errs ++ [ValidationService.phaseWarnRec (index + 1)])
      else (dm, errs) := rfl

/-- The demand pass only appends to its diagnostic accumulator. -/
theorem demand_foldl_mem_mono :
    ∀ (l : List (Nat × Row)) (st : ValidationService.ObjMap × List ValidationError)
      (d : ValidationError), d ∈ st.2 → d ∈ (l.foldl ValidationService.demandStep st).2 := by
  intro l
  induction l with
  | nil => intro st d h; exact h
  | cons x rest ih =>
    intro st d h
    rcases st with ⟨dm, errs⟩
    rcases x with ⟨index, task⟩
    simp only [List.foldl_cons]
    apply ih
    rw [demandStep_eq]
    split
    · split
      · exact h
      · exact List.mem_append_left _ h
    · exact h

/-- A task row whose guard passes but whose `PreferredPhases` value
does not parse to a JSON array contributes its warning to the demand
pass, whatever the accumulator holds. -/
theorem demand_foldl_mem :
    ∀ (l : List Row) (n : Nat) (st : ValidationService.ObjMap × List ValidationError)
      (i : Nat) (task : Row), l[i]? = some task →
      (fieldTruthy task "PreferredPhases" && fieldTruthy task "Duration") = true →
      jsonParseArr ((getField task "PreferredPhases").getD "") = none →
      ValidationService.phaseWarnRec (n + i + 1)
        ∈ ((l.enumFrom n).foldl ValidationService.demandStep st).2 := by
  intro l
  induction l with
  | nil =>
    intro n st i task h
    simp at h
  | cons r rest ih =>
    intro n st i task hrow hguard hfail
    simp only [List.enumFrom_cons, List.foldl_cons]
    cases i with
    | zero =>
      simp only [List.getElem?_cons_zero, Option.some.injEq] at hrow
      subst hrow
      apply demand_foldl_mem_mono
      rcases st with ⟨dm, errs⟩
      rw [demandStep_eq, if_pos hguard, hfail]
      simp
    | succ i' =>
      simp only [List.getElem?_cons_succ] at hrow
      have harith : n + (i' + 1) + 1 = (n + 1) + i' + 1 := by omega
      rw [harith]
      exact ih (n + 1) _ i' task hrow hguard hfail

def c3Workers : DataEntity :=
  { id := "w", type := .workers, data := [[("WorkerID", "W1")]],
    errors := [], warnings := [] }

/-- A task with a malformed `PreferredPhases` but no `Duration`. -/
def c3TasksNoDuration : DataEntity :=
  { id := "t", type := .tasks,
    data := [[("TaskID", "T1"), ("PreferredPhases", "oops")]],
    errors := [], warnings := [] }

/-- A second-row task whose `PreferredPhases` is a JSON array that is
not an array of positive integers. -/
def c3TasksZeroPhase : DataEntity :=
  { id := "t", type := .tasks,
    data := [[("TaskID", "T1"), ("Duration", "1"), ("PreferredPhases", "[2]")],
             [("TaskID", "T2"), ("Duration", "2"), ("PreferredPhases", "[0]")]],
    errors := [], warnings := [] }

/-- C3 counterexample: (a) a task whose preferred-phases field is
present but fails to parse is silently skipped by
`validatePhaseSlotSaturation` when its duration field is absent — the
output is empty; (b) a task whose preferred-phases value `"[0]"`
parses as a JSON array but not as an array of positive integers gets
no warning at its row (row 2) either. -/
theorem c3_counterexample :
    ValidationService.validatePhaseSlotSaturation [c3TasksNoDuration, c3Workers] = [] ∧
    fieldTruthy [("TaskID", "T1"), ("PreferredPhases", "oops")] "PreferredPhases" = true ∧
    jsonParse "oops" = none ∧
    parsePosIntArray "[0]" = none ∧
    (ValidationService.validatePhaseSlotSaturation [c3TasksZeroPhase, c3Workers]).all
      (fun d => d.row ≠ 2) = true ∧
    fieldTruthy [("TaskID", "T2"), ("Duration", "2"), ("PreferredPhases", "[0]")]
      "PreferredPhases" = true :=
  ⟨by decide, by decide, rfl, rfl, by decide, by decide⟩

/-- C3 (amended): for every task row whose preferred-phases field and
duration field are both present (truthy), if the preferred-phases
value fails to parse as a JSON array (a parse error or a non-array
value), `validatePhaseSlotSaturation` emits a `phase_slot_saturation`
warning located at that task's row number; a value that parses to a
JSON array is accepted regardless of its elements, and a task whose
duration field is absent or empty is skipped silently. -/
theorem c3_malformed_phases_warning (allEntities : List DataEntity)
    (te we : DataEntity)
    (ht : allEntities.find? (fun e => e.type = EntityType.tasks) = some te)
    (hw : allEntities.find? (fun e => e.type = EntityType.workers) = some we)
    (i : Nat) (task : Row) (hrow : te.data[i]? = some task)
    (hp : fieldTruthy task "PreferredPhases" = true)
    (hd : fieldTruthy task "Duration" = true)
    (hfail : jsonParseArr ((getField task "PreferredPhases").getD "") = none) :
    ValidationService.phaseWarnRec (i + 1)
      ∈ ValidationService.validatePhaseSlotSaturation allEntities := by
  unfold ValidationService.validatePhaseSlotSaturation
  simp only [ht, hw]
  rcases hfold : te.data.enum.foldl ValidationService.demandStep ([], []) with ⟨dm, errs⟩
  simp only [hfold]
  apply List.mem_append_left
  have hmem := demand_foldl_mem te.data 0 ([], []) i task hrow (by rw [hp, hd]; rfl) hfail
  have henum : te.data.enumFrom 0 = te.data.enum := rfl
  rw [henum, hfold] at hmem
  have harith : 0 + i + 1 = i + 1 := by omega
  rw [harith] at hmem
  exact hmem

/-- A task whose guard passes and whose `PreferredPhases` is malformed. -/
def c3TasksMalformed : DataEntity :=
  { id := "t", type := .tasks,
    data := [[("TaskID", "T1"), ("Duration", "2"), ("PreferredPhases", "oops")]],
    errors := [], warnings := [] }

/-- C3 witness: the amended theorem applied at the malformed fixture
puts the warning at row 1. -/
theorem c3_witness :
    ValidationService.phaseWarnRec 1
      ∈ ValidationService.validatePhaseSlotSaturation [c3TasksMalformed, c3Workers] :=
  c3_malformed_phases_warning [c3TasksMalformed, c3Workers] c3TasksMalformed c3Workers
    rfl rfl 0 [("TaskID", "T1"), ("Duration", "2"), ("PreferredPhases", "oops")]
    (by decide) (by decide) (by decide) rfl

/-- The logical diagnostic stream routed to the entity at position `i`
by the upload pipeline: its own validation findings, plus — for the
first tasks entity, when the phase-slot check found anything — the
phase-slot findings. -/
def entityStream (entities : List DataEntity) (i : Nat) : List ValidationError :=
  (match entities[i]? with
   | some en => ValidationService.validateEntity en entities
   | none => []) ++
  (if (ValidationService.validatePhaseSlotSaturation
        (entities.map (pipeValidate entities))).length > 0 ∧
      (entities.map (pipeValidate entities)).findIdx?
        (fun e => e.type = EntityType.tasks) = some i
   then ValidationService.validatePhaseSlotSaturation (entities.map (pipeValidate entities))
   else [])

/-- Severity-filter partition facts for an arbitrary diagnostic
stream. -/
theorem filter_partition (stream : List ValidationError) :
    (∀ d ∈ stream.filter (fun d => d.severity = Severity.error),
      d.severity = Severity.error) ∧
    (∀ d ∈ stream.filter (fun d => d.severity = Severity.warning),
      d.severity = Severity.warning) ∧
    (∀ d : ValidationError,
      ¬(d ∈ stream.filter (fun d => d.severity = Severity.error) ∧
        d ∈ stream.filter (fun d => d.severity = Severity.warning))) ∧
    (∀ d : ValidationError,
      (stream.filter (fun d => d.severity = Severity.error)).countP
          (fun x => decide (x = d))
        + (stream.filter (fun d => d.severity = Severity.warning)).countP
          (fun x => decide (x = d))
        = stream.countP (fun x => decide (x = d))) := by
  have herr : ∀ d ∈ stream.filter (fun d => d.severity = Severity.error),
      d.severity = Severity.error := by
    intro d hd
    exact of_decide_eq_true (List.mem_filter.mp hd).2
  have hwarn : ∀ d ∈ stream.filter (fun d => d.severity = Severity.warning),
      d.severity = Severity.warning := by
    intro d hd
    exact of_decide_eq_true (List.mem_filter.mp hd).2
  refine ⟨herr, hwarn, ?_, ?_⟩
  · rintro d ⟨h1, h2⟩
    have e1 := herr d h1
    have e2 := hwarn d h2
    rw [e1] at e2
    cases e2
  · intro d
    have hcong : stream.filter (fun d => d.severity = Severity.warning)
        = stream.filter (fun d => !(decide (d.severity = Severity.error))) := by
      apply List.filter_congr
      intro a _
      cases ha : a.severity <;> simp [ha]
    rw [hcong]
    exact countP_split stream (fun x => decide (x = d))
      (fun d => decide (d.severity = Severity.error))

/-- C5: after the upload pipeline populates an entity's diagnostics,
every member of `errors` has severity `error`, every member of
`warnings` has severity `warning`, no diagnostic is in both, and each
diagnostic of the entity's logical stream appears in exactly one of
the two sequences (counted with multiplicity). -/
theorem c5_partition_invariant (entities : List DataEntity) (i : Nat)
    (hi : i < entities.length) :
    ∃ e, (attachDiagnostics entities)[i]? = some e ∧
      (∀ d ∈ e.errors, d.severity = Severity.error) ∧
      (∀ d ∈ e.warnings, d.severity = Severity.warning) ∧
      (∀ d : ValidationError, ¬(d ∈ e.errors ∧ d ∈ e.warnings)) ∧
      (∀ d : ValidationError,
        e.errors.countP (fun x => decide (x = d))
          + e.warnings.countP (fun x => decide (x = d))
          = (entityStream entities i).countP (fun x => decide (x = d))) := by
  unfold attachDiagnostics attachPhase entityStream
  set vs := entities.map (pipeValidate entities) with hvs
  set ps := ValidationService.validatePhaseSlotSaturation vs with hps
  have hvi : vs[i]? = some (pipeValidate entities entities[i]) := by
    rw [hvs, List.getElem?_map, List.getElem?_eq_getElem hi]
    rfl
  have hev : ValidationService.validateEntity entities[i] entities
      = (match entities[i]? with
         | some en => ValidationService.validateEntity en entities
         | none => []) := by
    rw [List.getElem?_eq_getElem hi]
  by_cases hlen : ps.length > 0
  · rcases hidx : vs.findIdx? (fun e => e.type = EntityType.tasks) with _ | k
    · rw [if_pos hlen, hidx]
      refine ⟨pipeValidate entities entities[i], hvi, ?_⟩
      have hneg : ¬(ps.length > 0 ∧ (none : Option Nat) = some i) := by
        rintro ⟨_, hcon⟩
        cases hcon
      rw [if_neg hneg]
      obtain ⟨h1, h2, h3, h4⟩ :=
        filter_partition (ValidationService.validateEntity entities[i] entities)
      rw [← hev]
      simp only [pipeValidate]
      exact ⟨h1, h2, h3, fun d => by rw [List.append_nil]; exact h4 d⟩
    · rw [if_pos hlen]
      simp only [hidx]
      by_cases hik : i = k
      · subst hik
        refine ⟨{ pipeValidate entities entities[i] with
          warnings := (pipeValidate entities entities[i]).warnings
            ++ ps.filter (fun d => d.severity = Severity.warning),
          errors := (pipeValidate entities entities[i]).errors
            ++ ps.filter (fun d => d.severity = Severity.error) }, ?_, ?_⟩
        · rw [List.getElem?_map, List.getElem?_enum, hvi]
          simp
        · rw [if_pos ⟨hlen, rfl⟩]
          obtain ⟨h1, h2, h3, h4⟩ := filter_partition
            (ValidationService.validateEntity entities[i] entities ++ ps)
          simp only [List.filter_append] at h1 h2 h3 h4
          rw [← hev]
          simp only [pipeValidate]
          exact ⟨h1, h2, h3, h4⟩
      · refine ⟨pipeValidate entities entities[i], ?_, ?_⟩
        · rw [List.getElem?_map, List.getElem?_enum, hvi]
          simp [hik]
        · have hneg : ¬(ps.length > 0 ∧ (some k : Option Nat) = some i) := by
            rintro ⟨_, hcon⟩
            exact hik (Option.some.inj hcon).symm
          rw [if_neg hneg]
          obtain ⟨h1, h2, h3, h4⟩ :=
            filter_partition (ValidationService.validateEntity entities[i] entities)
          rw [← hev]
          simp only [pipeValidate]
          exact ⟨h1, h2, h3, fun d => by rw [List.append_nil]; exact h4 d⟩
  · rw [if_neg hlen]
    refine ⟨pipeValidate entities entities[i], hvi, ?_⟩
    have hneg : ¬(ps.length > 0 ∧
        vs.findIdx? (fun e => e.type = EntityType.tasks) = some i) := by
      rintro ⟨hcon, _⟩
      exact hlen hcon
    rw [if_neg hneg]
    obtain ⟨h1, h2, h3, h4⟩ :=
      filter_partition (ValidationService.validateEntity entities[i] entities)
    rw [← hev]
    simp only [pipeValidate]
    exact ⟨h1, h2, h3, fun d => by rw [List.append_nil]; exact h4 d⟩

/-- C5 witness: the partition invariant instantiated on a concrete
two-entity upload. -/
theorem c5_witness :
    ∃ e, (attachDiagnostics [clientT1T9, tasksOnlyT1])[0]? = some e ∧
      (∀ d ∈ e.errors, d.severity = Severity.error) ∧
      (∀ d ∈ e.warnings, d.severity = Severity.warning) ∧
      (∀ d : ValidationError, ¬(d ∈ e.errors ∧ d ∈ e.warnings)) ∧
      (∀ d : ValidationError,
        e.errors.countP (fun x => decide (x = d))
          + e.warnings.countP (fun x => decide (x = d))
          = (entityStream [clientT1T9, tasksOnlyT1] 0).countP (fun x => decide (x = d))) :=
  c5_partition_invariant [clientT1T9, tasksOnlyT1] 0 (by decide)

/-! ### Additional fixture evaluations exercising the embedding -/

def exWorkers : DataEntity :=
  { id := "w", type := .workers,
    data := [[("WorkerID", "W1"), ("Skills", "Python,Go"),
              ("AvailableSlots", "[1,2]"), ("MaxLoadPerPhase", "2")],
             [("WorkerID", "W2"), ("Skills", "Go"),
              ("AvailableSlots", "[2]"), ("MaxLoadPerPhase", "0")]],
    errors := [], warnings := [] }

example :
    (processNaturalLanguageQuery "Workers available in phase 1 and 2" [exWorkers]).2
      = "Processed using pattern: Find entities available in specific phases" := by decide

example :
    (processNaturalLanguageQuery "Workers available in phase 1 and 2" [exWorkers]).1.length
      = 1 := by decide

example :
    (processNaturalLanguageQuery "workers requiring skills Python or Rust" [exWorkers]).1.length
      = 1 := by decide

example :
    (processNaturalLanguageQuery "find workers with more than 1 skills" [exWorkers]).1.length
      = 1 := by decide

def exTasksNaN : DataEntity :=
  { id := "t", type := .tasks,
    data := [[("TaskID", "T1"), ("Duration", "abc"), ("PreferredPhases", "[2]")]],
    errors := [], warnings := [] }

example : ValidationService.validatePhaseSlotSaturation [exWorkers, exTasksNaN] = [] := by
  decide

def exTasksZeroLoad : DataEntity :=
  { id := "t", type := .tasks,
    data := [[("TaskID", "T1"), ("Duration", "4"), ("PreferredPhases", "[2]")]],
    errors := [], warnings := [] }

example :
    (ValidationService.validatePhaseSlotSaturation [exWorkers, exTasksZeroLoad]).map
      (fun d => d.message)
     = ["Phase 2 is oversaturated: demand (4) > capacity (3)"] := by decide

example :
    ((ValidationService.validateEntity exWorkers []).filter
      (fun d => d.type = "invalid_range")).map (fun d => d.row) = [2] := by decide

example :
    ((ValidationService.validateEntity exWorkers []).filter
      (fun d => d.type = "overloaded_worker")).length = 0 := by decide
